import Mathlib

/-!
Shallow embedding of the world-generation core of THEGAME (a tile-based
top-down exploration game) and proofs about it.

Embedded sources:
* `src/data/tiles.py` — tile/biome catalog (`COMMON_TILES`, `BIOME_CONFIGS`,
  `_build_tileset`, `_build_biome`, `get_biome_definition` with its cache);
* `src/engine/mapgen.py` — `generate_map`;
* `src/engine/player.py` — footprint recording;
* `src/engine/battle.py` / `src/engine/characters.py` — the `Enemy` and
  `Character` record types (data fields only);
* `src/engine/world.py` — `World`, `WorldScreen`, viewport building, biome
  weights, spawn search, `find_random_walkable`, `build_world`.

Modelling conventions:
* Python dicts are insertion-ordered association lists (`List (String × α)`
  etc.) with `dictSet` for `d[k] = v` and `List.lookup` for `d[k]`.
* Python floats are embedded as `ℚ`; Python ints as `ℤ`.  Lean's `/` and `%`
  on `ℤ` round toward negative infinity for positive divisors, matching
  Python's `//` and `%` (all divisors in this code are positive).
* Code that can raise (`KeyError`, `IndexError`, `TypeError`, empty
  `random.randint` range) is `Option`-valued; `none` is an exception.
* The `random` module is modelled by an oracle: an arbitrary stream of
  naturals consumed one draw at a time.  Theorems quantify over all oracles.
-/

namespace Game

/-- RGB colour triple, as stored in the tile and creature catalogs. -/
abbrev Color := ℕ × ℕ × ℕ

/-- A terrain tile record (src/data/tiles.py tile dicts): glyph, colours,
walkable flag, tile identifier and the optional reference to its ground tile
(added by `setdefault` in `_build_tileset`).  Tiles are value types: every
grid cell holds an independent copy. -/
structure Tile where
  char : String
  fg : Option Color
  bg : Option Color
  walkable : Bool
  tile_id : String
  ground_tile : Option String := none
  deriving DecidableEq

/-- Python dict assignment `d[k] = v` on an insertion-ordered association
list: replaces the value in place when the key is present, else appends. -/
def dictSet {α : Type} (d : List (String × α)) (k : String) (v : α) :
    List (String × α) :=
  match d with
  | [] => [(k, v)]
  | (k₀, v₀) :: rest => if k₀ = k then (k, v) :: rest else (k₀, v₀) :: dictSet rest k v

/-- Python `d.update(e)`: assign every entry of `e` into `d` in order. -/
def dictUpdate {α : Type} (d e : List (String × α)) : List (String × α) :=
  e.foldl (fun acc kv => dictSet acc kv.1 kv.2) d

/-- src/data/tiles.py `ScatterRule`: rule describing how to scatter additional
objects on a biome map. -/
structure ScatterRule where
  tile : String
  count_range : ℤ × ℤ
  avoid_border : Bool := true
  deriving DecidableEq

/-- src/data/tiles.py `BiomeDefinition`: complete description of a biome
tileset and spawning behaviour. -/
structure BiomeDefinition where
  name : String
  tiles : List (String × Tile)
  ground_tile : String
  forest_tiles : List String
  forest_count : ℤ × ℤ
  forest_radius : ℤ × ℤ
  forest_density : ℚ
  scatter_rules : List ScatterRule
  deriving DecidableEq

/-- A per-biome override entry of a biome config: a partial tile dict merged
into a common tile by `tile.update(overrides[name])`.  A `none` field is an
absent key.  (No config of `BIOME_CONFIGS` actually carries overrides.) -/
structure TilePatch where
  char : Option String := none
  fg : Option (Option Color) := none
  bg : Option (Option Color) := none
  walkable : Option Bool := none
  tile_id : Option String := none
  deriving DecidableEq

/-- `tile.update(patch)`: keys present in the patch overwrite the tile's. -/
def applyPatch (t : Tile) (p : TilePatch) : Tile :=
  { char := p.char.getD t.char
    fg := p.fg.getD t.fg
    bg := p.bg.getD t.bg
    walkable := p.walkable.getD t.walkable
    tile_id := p.tile_id.getD t.tile_id
    ground_tile := t.ground_tile }

/-- One entry of src/data/tiles.py `BIOME_CONFIGS`, typed.  Field defaults
mirror the `config.get(..., default)` calls of `_build_tileset` and
`_build_biome`. -/
structure BiomeConfig where
  ground_tile : String
  unique_tiles : List (String × Tile)
  overrides : List (String × TilePatch) := []
  extras : List (String × Tile) := []
  forest_tiles : List String := []
  forest_count : ℤ × ℤ := (3, 6)
  forest_radius : ℤ × ℤ := (2, 5)
  forest_density : ℚ := mkRat 7 10
  scatter_rules : List ScatterRule := []

/-- Base colours shared between tiles (src/data/tiles.py). -/
def PLAYER_GOLD : Color := (240, 200, 80)

def ENEMY_RED : Color := (120, 0, 40)

def WARLOCK_PURPLE : Color := (180, 0, 200)

def WARLOCK_BG : Color := (20, 0, 40)

def SUMMER_GRASS_FG : Color := (20, 150, 40)

def SUMMER_GRASS_BG : Color := (5, 70, 15)

def SUMMER_TREE_FG : Color := (90, 200, 90)

def SUMMER_TREE_BG : Color := SUMMER_GRASS_BG

def SUMMER_ROCK_FG : Color := (130, 130, 130)

def WINTER_SNOW_FG : Color := (230, 230, 255)

def WINTER_SNOW_BG : Color := (210, 210, 235)

def WINTER_TREE_FG : Color := (30, 90, 160)

def WINTER_TREE_BG : Color := WINTER_SNOW_BG

def WINTER_SNOWDRIFT_FG : Color := (200, 200, 230)

def DROUGHT_SAND_FG : Color := (215, 180, 90)

def DROUGHT_SAND_BG : Color := (170, 130, 60)

def DROUGHT_CACTUS_FG : Color := (60, 140, 70)

def DROUGHT_WOOD_FG : Color := (150, 90, 40)

/-- src/data/tiles.py `COMMON_TILES`. -/
def COMMON_TILES : List (String × Tile) :=
  [("player",
    { char := "@", fg := some PLAYER_GOLD, bg := none, walkable := true,
      tile_id := "player" }),
   ("enemy",
    { char := "E", fg := some (255, 230, 230), bg := some ENEMY_RED,
      walkable := false, tile_id := "enemy" }),
   ("warlock",
    { char := "§", fg := some WARLOCK_PURPLE, bg := some WARLOCK_BG,
      walkable := false, tile_id := "warlock" })]

/-- The `"summer"` entry of `BIOME_CONFIGS`. -/
def summer_config : BiomeConfig :=
  { ground_tile := "summer_ground"
    unique_tiles :=
      [("summer_ground",
        { char := ".", fg := some SUMMER_GRASS_FG, bg := some SUMMER_GRASS_BG,
          walkable := true, tile_id := "summer_ground" }),
       ("summer_tree",
        { char := "♣", fg := some SUMMER_TREE_FG, bg := some SUMMER_TREE_BG,
          walkable := false, tile_id := "summer_tree" }),
       ("summer_boulder",
        { char := "▲", fg := some SUMMER_ROCK_FG, bg := some SUMMER_GRASS_BG,
          walkable := false, tile_id := "summer_boulder" })]
    forest_tiles := ["summer_tree"]
    forest_count := (3, 6)
    forest_radius := (2, 5)
    forest_density := mkRat 7 10
    scatter_rules := [{ tile := "summer_boulder", count_range := (12, 22) }] }

/-- The `"winter"` entry of `BIOME_CONFIGS`. -/
def winter_config : BiomeConfig :=
  { ground_tile := "winter_ground"
    unique_tiles :=
      [("winter_ground",
        { char := "·", fg := some WINTER_SNOW_FG, bg := some WINTER_SNOW_BG,
          walkable := true, tile_id := "winter_ground" }),
       ("winter_tree",
        { char := "Y", fg := some WINTER_TREE_FG, bg := some WINTER_TREE_BG,
          walkable := false, tile_id := "winter_tree" }),
       ("winter_snowdrift",
        { char := "~", fg := some WINTER_SNOWDRIFT_FG, bg := some WINTER_SNOW_BG,
          walkable := true, tile_id := "winter_snowdrift" })]
    forest_tiles := ["winter_tree"]
    forest_count := (3, 6)
    forest_radius := (2, 5)
    forest_density := mkRat 7 10
    scatter_rules :=
      [{ tile := "winter_snowdrift", count_range := (18, 28), avoid_border := false }]
    extras :=
      [("footprint",
        { char := "'", fg := some WINTER_SNOWDRIFT_FG, bg := some WINTER_SNOW_BG,
          walkable := true, tile_id := "footprint" })] }

/-- The `"drought"` entry of `BIOME_CONFIGS`. -/
def drought_config : BiomeConfig :=
  { ground_tile := "drought_ground"
    unique_tiles :=
      [("drought_ground",
        { char := "`", fg := some DROUGHT_SAND_FG, bg := some DROUGHT_SAND_BG,
          walkable := true, tile_id := "drought_ground" }),
       ("drought_cactus",
        { char := "†", fg := some DROUGHT_CACTUS_FG, bg := some DROUGHT_SAND_BG,
          walkable := false, tile_id := "drought_cactus" }),
       ("drought_dead_tree",
        { char := "T", fg := some DROUGHT_WOOD_FG, bg := some DROUGHT_SAND_BG,
          walkable := false, tile_id := "drought_dead_tree" })]
    forest_tiles := ["drought_cactus", "drought_dead_tree"]
    forest_count := (3, 6)
    forest_radius := (2, 5)
    forest_density := mkRat 6 10
    scatter_rules :=
      [{ tile := "drought_cactus", count_range := (8, 14) },
       { tile := "drought_dead_tree", count_range := (6, 12) }] }

/-- src/data/tiles.py `BIOME_CONFIGS`. -/
def BIOME_CONFIGS : List (String × BiomeConfig) :=
  [("summer", summer_config), ("winter", winter_config), ("drought", drought_config)]

/-- `tile.setdefault("ground_tile", ground_key)`. -/
def setdefaultGround (t : Tile) (ground_key : String) : Tile :=
  match t.ground_tile with
  | none => { t with ground_tile := some ground_key }
  | some _ => t

/-- src/data/tiles.py `_build_tileset` (lines 82-115): construct the final
tile dictionary for a biome configuration.  `none` models the `KeyError`
raised when the ground tile key is missing from the unique tiles. -/
def build_tileset (config : BiomeConfig) : Option (List (String × Tile) × String) :=
  let ground_key := config.ground_tile
  let tiles0 := config.unique_tiles.foldl
    (fun acc kv => dictSet acc kv.1 (setdefaultGround kv.2 ground_key)) []
  match List.lookup ground_key tiles0 with
  | none => none
  | some groundTile =>
    let ground_bg := groundTile.bg
    let tiles1 := COMMON_TILES.foldl
      (fun acc kv =>
        let tile := setdefaultGround kv.2 ground_key
        let tile := if tile.bg = none then { tile with bg := ground_bg } else tile
        let tile :=
          match List.lookup kv.1 config.overrides with
          | some p => applyPatch tile p
          | none => tile
        dictSet acc kv.1 tile) tiles0
    let tiles2 := config.extras.foldl
      (fun acc kv => dictSet acc kv.1 (setdefaultGround kv.2 ground_key)) tiles1
    some (tiles2, ground_key)

/-- src/data/tiles.py `_build_biome` (lines 229-240). -/
def build_biome (name : String) (config : BiomeConfig) : Option BiomeDefinition :=
  (build_tileset config).map fun tg =>
    { name := name
      tiles := tg.1
      ground_tile := tg.2
      forest_tiles := config.forest_tiles
      forest_count := config.forest_count
      forest_radius := config.forest_radius
      forest_density := config.forest_density
      scatter_rules := config.scatter_rules }

/-- The module-level `_BIOME_CACHE` of src/data/tiles.py, threaded as state. -/
abbrev BiomeCache := List (String × BiomeDefinition)

/-- src/data/tiles.py `get_biome_definition` (lines 246-252): return the biome
definition with cached construction; an unknown id falls back to the
`"summer"` configuration.  Returns the definition and the updated cache. -/
def get_biome_definition (cache : BiomeCache) (biome : String) :
    Option (BiomeDefinition × BiomeCache) :=
  match List.lookup biome cache with
  | some d => some (d, cache)
  | none =>
    let config := (List.lookup biome BIOME_CONFIGS).getD summer_config
    match build_biome biome config with
    | some d => some (d, dictSet cache biome d)
    | none => none

/-- Every cache reachable in the program holds only definitions built by
`_build_biome` from the config `get_biome_definition` selects for that id
(the cache starts empty and is written only by `get_biome_definition`). -/
def CacheWF (cache : BiomeCache) : Prop :=
  ∀ k v, (k, v) ∈ cache →
    build_biome k ((List.lookup k BIOME_CONFIGS).getD summer_config) = some v

theorem build_tileset_summer_some : ∃ x, build_tileset summer_config = some x :=
  ⟨_, rfl⟩

theorem build_tileset_winter_some : ∃ x, build_tileset winter_config = some x :=
  ⟨_, rfl⟩

theorem build_tileset_drought_some : ∃ x, build_tileset drought_config = some x :=
  ⟨_, rfl⟩

/-- The config `get_biome_definition` selects is one of the three catalog
configs (an unknown id falls back to `summer_config`). -/
theorem lookup_BIOME_CONFIGS_cases (b : String) :
    (List.lookup b BIOME_CONFIGS).getD summer_config = summer_config ∨
    (List.lookup b BIOME_CONFIGS).getD summer_config = winter_config ∨
    (List.lookup b BIOME_CONFIGS).getD summer_config = drought_config := by
  by_cases h1 : b = "summer"
  · subst h1; left; rfl
  · by_cases h2 : b = "winter"
    · subst h2; right; left; rfl
    · by_cases h3 : b = "drought"
      · subst h3; right; right; rfl
      · have e1 : (b == "summer") = false := beq_eq_false_iff_ne.mpr h1
        have e2 : (b == "winter") = false := beq_eq_false_iff_ne.mpr h2
        have e3 : (b == "drought") = false := beq_eq_false_iff_ne.mpr h3
        left
        simp [BIOME_CONFIGS, List.lookup, e1, e2, e3]

/-- `_build_biome` succeeds on every config `get_biome_definition` can select. -/
theorem build_biome_selected_some (name b : String) :
    ∃ d, build_biome name ((List.lookup b BIOME_CONFIGS).getD summer_config) = some d := by
  rcases lookup_BIOME_CONFIGS_cases b with h | h | h <;> rw [h]
  · exact ⟨_, rfl⟩
  · exact ⟨_, rfl⟩
  · exact ⟨_, rfl⟩

/-- A successful association-list lookup exhibits a member of the list. -/
theorem mem_of_lookup_some {α : Type} {d : List (String × α)} {k : String} {v : α}
    (h : List.lookup k d = some v) : (k, v) ∈ d := by
  induction d with
  | nil => simp [List.lookup] at h
  | cons kv rest ih =>
    obtain ⟨k₀, v₀⟩ := kv
    simp only [List.lookup] at h
    cases hbe : (k == k₀) with
    | true =>
      rw [hbe] at h
      cases h
      exact List.mem_cons.mpr (Or.inl (by rw [eq_of_beq hbe]))
    | false =>
      rw [hbe] at h
      exact List.mem_cons.mpr (Or.inr (ih h))

/-- Looking a key up right after `dictSet` of that key finds the new value. -/
theorem lookup_dictSet_self {α : Type} (d : List (String × α)) (k : String) (v : α) :
    List.lookup k (dictSet d k v) = some v := by
  induction d with
  | nil => simp [dictSet, List.lookup]
  | cons kv rest ih =>
    obtain ⟨k₀, v₀⟩ := kv
    by_cases h : k₀ = k
    · subst h; simp [dictSet, List.lookup]
    · simp only [dictSet, if_neg h, List.lookup]
      have : (k == k₀) = false := by
        simpa [beq_iff_eq] using fun hk => h hk.symm
      simp [this, ih]

/-- C9: `get_biome_definition` is deterministic, idempotent and memoized: for
every biome id and every cache state, the call succeeds, and a second call
with the same id returns the same `BiomeDefinition` and leaves the cache
unchanged (the second result is the cached, shared value). -/
theorem get_biome_definition_idempotent (cache : BiomeCache) (biome : String) :
    ∃ d c₁, get_biome_definition cache biome = some (d, c₁) ∧
      get_biome_definition c₁ biome = some (d, c₁) := by
  match hl : List.lookup biome cache with
  | some d =>
    refine ⟨d, cache, ?_, ?_⟩ <;> simp [get_biome_definition, hl]
  | none =>
    obtain ⟨d, hd⟩ := build_biome_selected_some biome biome
    refine ⟨d, dictSet cache biome d, ?_, ?_⟩
    · simp [get_biome_definition, hl, hd]
    · simp [get_biome_definition, lookup_dictSet_self]

/-- Unfolding `_build_biome`: a successful result is the record assembled
from the tileset and the config's forest/scatter parameters. -/
theorem build_biome_eq_fields (name : String) (cfg : BiomeConfig) (d : BiomeDefinition)
    (h : build_biome name cfg = some d) :
    ∃ ts, build_tileset cfg = some ts ∧
      d = { name := name, tiles := ts.1, ground_tile := ts.2,
            forest_tiles := cfg.forest_tiles, forest_count := cfg.forest_count,
            forest_radius := cfg.forest_radius, forest_density := cfg.forest_density,
            scatter_rules := cfg.scatter_rules } := by
  cases hts : build_tileset cfg with
  | none =>
    simp only [build_biome, hts, Option.map_none'] at h
    exact absurd h (by simp)
  | some ts =>
    simp only [build_biome, hts, Option.map_some'] at h
    injection h with h
    exact ⟨ts, rfl, h.symm⟩

/-- C10: for a biome id that is not a key of the catalog,
`get_biome_definition` does not raise: it falls back to the summer
configuration and returns a `BiomeDefinition` carrying the requested name but
summer's tiles, ground tile, forest parameters and scatter rules. -/
theorem get_biome_definition_unknown_biome (cache : BiomeCache) (biome : String)
    (hwf : CacheWF cache) (hnk : List.lookup biome BIOME_CONFIGS = none) :
    ∃ d c₁ dsummer c₂,
      get_biome_definition cache biome = some (d, c₁) ∧
      get_biome_definition [] "summer" = some (dsummer, c₂) ∧
      d.name = biome ∧
      d.tiles = dsummer.tiles ∧
      d.ground_tile = dsummer.ground_tile ∧
      d.forest_tiles = dsummer.forest_tiles ∧
      d.forest_count = dsummer.forest_count ∧
      d.forest_radius = dsummer.forest_radius ∧
      d.forest_density = dsummer.forest_density ∧
      d.scatter_rules = dsummer.scatter_rules := by
  obtain ⟨ds, hds⟩ : ∃ d, build_biome "summer" summer_config = some d := ⟨_, rfl⟩
  have hgs : get_biome_definition [] "summer" = some (ds, dictSet [] "summer" ds) := by
    simp [get_biome_definition, BIOME_CONFIGS, List.lookup, hds]
  obtain ⟨ts₂, hts₂, hdsv⟩ := build_biome_eq_fields _ _ _ hds
  match hl : List.lookup biome cache with
  | some v =>
    have hv := hwf biome v (mem_of_lookup_some hl)
    rw [hnk] at hv
    simp only [Option.getD_none] at hv
    obtain ⟨ts, hts, hdv⟩ := build_biome_eq_fields _ _ _ hv
    rw [hts] at hts₂
    injection hts₂ with e
    subst e
    refine ⟨v, cache, ds, _, ?_, hgs, ?_, ?_, ?_, ?_, ?_, ?_, ?_, ?_⟩
    · simp [get_biome_definition, hl]
    all_goals simp [hdv, hdsv]
  | none =>
    obtain ⟨d, hd⟩ : ∃ d, build_biome biome summer_config = some d := ⟨_, rfl⟩
    have hgd : get_biome_definition cache biome = some (d, dictSet cache biome d) := by
      simp [get_biome_definition, hl, hnk, hd]
    obtain ⟨ts, hts, hdd⟩ := build_biome_eq_fields _ _ _ hd
    rw [hts] at hts₂
    injection hts₂ with e
    subst e
    refine ⟨d, _, ds, _, hgd, hgs, ?_, ?_, ?_, ?_, ?_, ?_, ?_, ?_⟩
    all_goals simp [hdd, hdsv]

/-- Witness for C10 at a concrete unknown biome id and the empty cache. -/
theorem get_biome_definition_unknown_biome_witness :
    ∃ d c₁ dsummer c₂,
      get_biome_definition [] "lava" = some (d, c₁) ∧
      get_biome_definition [] "summer" = some (dsummer, c₂) ∧
      d.name = "lava" ∧
      d.tiles = dsummer.tiles ∧
      d.ground_tile = dsummer.ground_tile ∧
      d.forest_tiles = dsummer.forest_tiles ∧
      d.forest_count = dsummer.forest_count ∧
      d.forest_radius = dsummer.forest_radius ∧
      d.forest_density = dsummer.forest_density ∧
      d.scatter_rules = dsummer.scatter_rules :=
  get_biome_definition_unknown_biome [] "lava"
    (fun k v h => absurd h (List.not_mem_nil (k, v))) rfl

/-- The ambient random source of the `random` module: an arbitrary stream of
naturals, consumed one draw at a time.  Theorems quantify over every oracle,
so they hold for every sequence of values the RNG could produce. -/
def Oracle : Type := ℕ → ℕ

/-- The next raw draw. -/
def Oracle.head (o : Oracle) : ℕ := o 0

/-- The oracle after one draw. -/
def Oracle.tail (o : Oracle) : Oracle := fun n => o (n + 1)

/-- The oracle advanced past its first `k` draws. -/
def Oracle.drop (o : Oracle) (k : ℕ) : Oracle := fun n => o (n + k)

/-- Randomized, fallible computations: state-threaded oracle over `Option`,
where `none` models a raised exception. -/
abbrev RandM (α : Type) : Type := StateT Oracle Option α

/-- A raised exception. -/
def mfail {α : Type} : RandM α := fun _ => none

/-- Model of `random.randint(lo, hi)`: a value in `[lo, hi]` chosen by the
oracle; raises (as Python's `ValueError`) when the range is empty. -/
def randint (lo hi : ℤ) : RandM ℤ := fun o =>
  if hi < lo then none
  else some (lo + ((o.head % (hi - lo + 1).toNat : ℕ) : ℤ), o.tail)

/-- Model of `random.random()`: a rational in `[0, 1)` chosen by the oracle
(floats are embedded as rationals). -/
def randfloat : RandM ℚ := fun o =>
  some (mkRat ((o.head % 1000000 : ℕ) : ℤ) 1000000, o.tail)

/-- Model of `random.choice(l)`: an element of `l` chosen by the oracle;
raises on the empty list, as Python does. -/
def choice {α : Type} (l : List α) : RandM α := fun o =>
  match l[o.head % l.length]? with
  | some a => some (a, o.tail)
  | none => none

/-- A Python `for` loop threading an accumulator (and the oracle) through a
list of iterates. -/
def mFold {α β : Type} (f : β → α → RandM β) : List α → β → RandM β
  | [], b => pure b
  | a :: as, b => f b a >>= fun b₁ => mFold f as b₁

/-- A Python loop appending one result per iterate to a list. -/
def mMap {α β : Type} (f : α → RandM β) : List α → RandM (List β)
  | [] => pure []
  | a :: as => f a >>= fun b => mMap f as >>= fun bs => pure (b :: bs)

/-- Auxiliary recursion for `intRange`. -/
def intRangeGo (a : ℤ) : ℕ → List ℤ
  | 0 => []
  | n + 1 => a :: intRangeGo (a + 1) n

/-- Python `range(a, b)` over integers. -/
def intRange (a b : ℤ) : List ℤ := intRangeGo a (b - a).toNat

theorem mem_intRangeGo {a r : ℤ} {n : ℕ} (h : r ∈ intRangeGo a n) :
    a ≤ r ∧ r < a + n := by
  induction n generalizing a with
  | zero => cases h
  | succ m ih =>
    rcases List.mem_cons.mp h with h | h
    · omega
    · have := ih h
      omega

theorem mem_intRange {a b r : ℤ} (h : r ∈ intRange a b) : a ≤ r ∧ r < b := by
  have h₁ := mem_intRangeGo h
  omega

theorem intRangeGo_mem {a r : ℤ} {n : ℕ} (h₁ : a ≤ r) (h₂ : r < a + n) :
    r ∈ intRangeGo a n := by
  induction n generalizing a with
  | zero => omega
  | succ m ih =>
    rcases eq_or_lt_of_le h₁ with h | h
    · exact h ▸ List.mem_cons_self a _
    · exact List.mem_cons.mpr (Or.inr (ih h (by omega)))

theorem intRange_mem {a b r : ℤ} (h₁ : a ≤ r) (h₂ : r < b) : r ∈ intRange a b :=
  intRangeGo_mem h₁ (by simp [Int.toNat_of_nonneg]; omega)

/-- A terrain matrix: a list of rows of tiles. -/
abbrev Grid := List (List Tile)

/-- `game_map[y][x]`.  All indices in the embedded code are non-negative and
in range; out-of-range access yields `none`. -/
def gridGet (g : Grid) (y x : ℤ) : Option Tile :=
  if 0 ≤ y ∧ 0 ≤ x then (g[y.toNat]?).bind fun row => row[x.toNat]?
  else none

/-- `game_map[y][x] = t` (all writes in the embedded code are in range; a
write out of range is a no-op here). -/
def gridSet (g : Grid) (y x : ℤ) (t : Tile) : Grid :=
  if 0 ≤ y ∧ 0 ≤ x then
    match g[y.toNat]? with
    | some row => g.set y.toNat (row.set x.toNat t)
    | none => g
  else g

/-- `game_map[y][x]["walkable"]` with `false` out of range. -/
def walkableAt (g : Grid) (y x : ℤ) : Bool :=
  match gridGet g y x with
  | some t => t.walkable
  | none => false

theorem gridGet_gridSet_ne {g : Grid} {y x y₁ x₁ : ℤ} {t : Tile}
    (h : x₁ ≠ x ∨ y₁ ≠ y) :
    gridGet (gridSet g y x t) y₁ x₁ = gridGet g y₁ x₁ := by
  unfold gridGet gridSet
  by_cases hw : 0 ≤ y ∧ 0 ≤ x
  · simp only [if_pos hw]
    by_cases hr : 0 ≤ y₁ ∧ 0 ≤ x₁
    · simp only [if_pos hr]
      cases hrow : g[y.toNat]? with
      | none => rfl
      | some row =>
        by_cases hy : y₁.toNat = y.toNat
        · have hyy : y₁ = y := by omega
          have hx : x₁.toNat ≠ x.toNat := by omega
          rw [hy, List.getElem?_set_self (by exact (List.getElem?_eq_some_iff.mp hrow).1)]
          rw [hrow]
          simp [List.getElem?_set_ne (fun hh => hx hh.symm)]
        · rw [List.getElem?_set_ne (fun hh => hy hh.symm)]
    · simp only [if_neg hr]
  · simp only [if_neg hw]

theorem gridGet_gridSet_cases {g : Grid} {y x y₁ x₁ : ℤ} {t t₁ : Tile}
    (h : gridGet (gridSet g y x t) y₁ x₁ = some t₁) :
    t₁ = t ∨ gridGet g y₁ x₁ = some t₁ := by
  by_cases hc : x₁ ≠ x ∨ y₁ ≠ y
  · right; rw [← gridGet_gridSet_ne hc]; exact h
  · push_neg at hc
    obtain ⟨hx, hy⟩ := hc
    rw [hx, hy] at h ⊢
    unfold gridGet gridSet at h
    by_cases hw : 0 ≤ y ∧ 0 ≤ x
    · simp only [if_pos hw] at h
      cases hrow : g[y.toNat]? with
      | none =>
        simp only [hrow] at h
        exact absurd h (by simp)
      | some row =>
        simp only [hrow,
          List.getElem?_set_self ((List.getElem?_eq_some_iff.mp hrow).1),
          Option.some_bind, List.getElem?_set] at h
        split at h
        · split at h
          · left
            exact (Option.some.inj h).symm
          · cases h
        · right
          unfold gridGet
          rw [if_pos hw, hrow]
          exact h
    · simp only [if_neg hw] at h
      cases h

/-- Length of rows and columns is preserved by `gridSet`. -/
theorem gridSet_length {g : Grid} {y x : ℤ} {t : Tile} :
    (gridSet g y x t).length = g.length := by
  unfold gridSet
  split
  · split <;> simp
  · rfl

/-- Destructuring a successful `>>=` in `RandM`. -/
theorem bind_eq_some {α β : Type} {x : RandM α} {f : α → RandM β} {o : Oracle}
    {b : β} {o₂ : Oracle} (h : (x >>= f) o = some (b, o₂)) :
    ∃ a o₁, x o = some (a, o₁) ∧ f a o₁ = some (b, o₂) := by
  have h₁ : (x o).bind (fun p => f p.1 p.2) = some (b, o₂) := h
  cases hx : x o with
  | none => rw [hx] at h₁; exact absurd h₁ (by simp)
  | some p =>
    rw [hx] at h₁
    exact ⟨p.1, p.2, rfl, h₁⟩

theorem pure_eq_some {α : Type} {a b : α} {o o₁ : Oracle}
    (h : (pure a : RandM α) o = some (b, o₁)) : b = a ∧ o₁ = o := by
  have h₁ : some (a, o) = some (b, o₁) := h
  injection h₁ with h₁
  exact ⟨congrArg Prod.fst h₁.symm, congrArg Prod.snd h₁.symm⟩

/-- Invariant preservation through `mFold`: if every step taken from a list
element preserves `P`, a successful fold preserves `P`. -/
theorem mFold_invariant {α β : Type} {f : β → α → RandM β} (P : β → Prop)
    {l : List α} {b : β} {o : Oracle} {b₁ : β} {o₁ : Oracle}
    (hstep : ∀ c a o₂ c₁ o₃, P c → a ∈ l → f c a o₂ = some (c₁, o₃) → P c₁)
    (hb : P b) (h : mFold f l b o = some (b₁, o₁)) : P b₁ := by
  induction l generalizing b o with
  | nil =>
    obtain ⟨hba, -⟩ := pure_eq_some h
    exact hba ▸ hb
  | cons a as ih =>
    obtain ⟨c, o₂, hc, hrest⟩ := bind_eq_some h
    exact ih (fun c a ho₂ c₁ o₃ hP ha => hstep c a ho₂ c₁ o₃ hP (List.mem_cons_of_mem _ ha))
      (hstep b a o c o₂ hb (List.mem_cons_self a as) hc) hrest

theorem randint_spec {lo hi : ℤ} {o : Oracle} {v : ℤ} {o₁ : Oracle}
    (h : randint lo hi o = some (v, o₁)) :
    lo ≤ v ∧ v ≤ hi ∧ o₁ = o.tail := by
  unfold randint at h
  split at h
  · cases h
  · rename_i hge
    injection h with h
    rw [Prod.mk.injEq] at h
    obtain ⟨hv, ho⟩ := h
    have hm : o.head % (hi - lo + 1).toNat < (hi - lo + 1).toNat :=
      Nat.mod_lt _ (by omega)
    refine ⟨by omega, by omega, ho.symm⟩

theorem choice_spec {α : Type} {l : List α} {o : Oracle} {a : α} {o₁ : Oracle}
    (h : choice l o = some (a, o₁)) : a ∈ l ∧ o₁ = o.tail := by
  unfold choice at h
  cases hg : l[o.head % l.length]? with
  | none =>
    simp only [hg] at h
    cases h
  | some b =>
    simp only [hg] at h
    injection h with h
    rw [Prod.mk.injEq] at h
    obtain ⟨ha, ho⟩ := h
    exact ⟨ha ▸ List.getElem?_mem hg, ho.symm⟩

/-- src/engine/mapgen.py `_pick_forest_tile` (lines 11-14). -/
def pick_forest_tile (options : List String) : RandM (Option String) :=
  if options.isEmpty then pure none
  else do
    let t ← choice options
    pure (some t)

theorem pick_forest_tile_spec {opts : List String} {o : Oracle} {r : Option String}
    {o₁ : Oracle} (h : pick_forest_tile opts o = some (r, o₁)) :
    r = none ∨ ∃ s, r = some s ∧ s ∈ opts := by
  unfold pick_forest_tile at h
  split at h
  · exact Or.inl (pure_eq_some h).1
  · obtain ⟨s, o₂, hs, hrest⟩ := bind_eq_some h
    exact Or.inr ⟨s, (pure_eq_some hrest).1, (choice_spec hs).1⟩

/-- One cell visit of the forest-cluster scan of `generate_map`
(src/engine/mapgen.py lines 38-44): skip the outer border, test the circular
distance, then with probability `forest_density` overwrite the cell with a
uniformly chosen forest tile.  The Python test `dist < radius` with
`dist = sqrt((x-fx)**2 + (y-fy)**2)` over integer coordinates and integer
radius is embedded as the equivalent integer test
`0 < radius ∧ (x-fx)² + (y-fy)² < radius²`. -/
def forestCell (width height : ℤ) (biome : BiomeDefinition) (fx fy radius : ℤ)
    (g : Grid) (y x : ℤ) : RandM Grid :=
  if x = 0 ∨ x = width - 1 ∨ y = 0 ∨ y = height - 1 then
    pure g
  else if 0 < radius ∧ (x - fx) ^ 2 + (y - fy) ^ 2 < radius ^ 2 then do
    let roll ← randfloat
    if roll < biome.forest_density then do
      let tile_name ← pick_forest_tile biome.forest_tiles
      match tile_name with
      | some name =>
        match List.lookup name biome.tiles with
        | some t => pure (gridSet g y x t)
        | none => mfail
      | none => pure g
    else
      pure g
  else
    pure g

/-- One forest cluster of `generate_map` (lines 31-44): a centre confined to
the interior, a radius from the biome's range, then a scan of the bounding
box. -/
def forestCluster (width height : ℤ) (biome : BiomeDefinition) (g : Grid) :
    RandM Grid := do
  let fx ← randint 1 (width - 2)
  let fy ← randint 1 (height - 2)
  let radius ← randint biome.forest_radius.1 biome.forest_radius.2
  mFold (fun g y =>
      mFold (fun g x => forestCell width height biome fx fy radius g y x)
        (intRange (max 0 (fx - radius)) (min width (fx + radius + 1))) g)
    (intRange (max 0 (fy - radius)) (min height (fy + radius + 1))) g

/-- One placement attempt of a scatter rule (lines 51-56): random coordinates,
skipped when the rule avoids the border and the coordinates lie on it; no
collision avoidance — the write silently overwrites whatever is there. -/
def scatterPlace (width height : ℤ) (rule : ScatterRule) (t : Tile) (g : Grid) :
    RandM Grid := do
  let x ← randint 0 (width - 1)
  let y ← randint 0 (height - 1)
  if rule.avoid_border ∧ (x = 0 ∨ x = width - 1 ∨ y = 0 ∨ y = height - 1) then
    pure g
  else
    pure (gridSet g y x t)

/-- One scatter rule of `generate_map` (lines 46-56): draw a count, skip rules
whose tile is unknown, then place the tile `count` times. -/
def scatterRuleStep (width height : ℤ) (biome : BiomeDefinition) (g : Grid)
    (rule : ScatterRule) : RandM Grid := do
  let count ← randint rule.count_range.1 rule.count_range.2
  match List.lookup rule.tile biome.tiles with
  | none => pure g
  | some t =>
    mFold (fun g _ => scatterPlace width height rule t g) (List.range count.toNat) g

/-- src/engine/mapgen.py `generate_map` (lines 17-58): fill the grid with
copies of the ground tile, draw forest clusters, then apply the scatter
rules.  `none` models the `KeyError` raised when the ground tile key is
missing from the palette (and the `ValueError` of an empty `randint` range,
e.g. `width < 3`). -/
def generate_map (width height : ℤ) (biome : BiomeDefinition) : RandM Grid :=
  match List.lookup biome.ground_tile biome.tiles with
  | none => mfail
  | some ground_tile => do
    let game_map : Grid :=
      List.replicate height.toNat (List.replicate width.toNat ground_tile)
    let num_forests ← randint biome.forest_count.1 biome.forest_count.2
    let game_map ← mFold (fun g _ => forestCluster width height biome g)
      (List.range num_forests.toNat) game_map
    let game_map ← mFold (scatterRuleStep width height biome) biome.scatter_rules game_map
    pure game_map

/-- The only tiles `generate_map` can leave on the outer border: the ground
fill, or the tile of a scatter rule that does not avoid the border. -/
def BorderTileOk (d : BiomeDefinition) (gt t : Tile) : Prop :=
  t = gt ∨ ∃ r, r ∈ d.scatter_rules ∧ r.avoid_border = false ∧
    List.lookup r.tile d.tiles = some t

/-- Border invariant of a grid. -/
def BorderOk (width height : ℤ) (d : BiomeDefinition) (gt : Tile) (g : Grid) : Prop :=
  ∀ x y t, (x = 0 ∨ x = width - 1 ∨ y = 0 ∨ y = height - 1) →
    gridGet g y x = some t → BorderTileOk d gt t

theorem gridGet_replicate {h w : ℕ} {gt : Tile} {y x : ℤ} {t : Tile}
    (hg : gridGet (List.replicate h (List.replicate w gt)) y x = some t) : t = gt := by
  unfold gridGet at hg
  split at hg
  · rw [List.getElem?_replicate] at hg
    split at hg
    · simp only [Option.some_bind, List.getElem?_replicate] at hg
      split at hg
      · exact (Option.some.inj hg).symm
      · cases hg
    · cases hg
  · cases hg

theorem forestCell_border {width height : ℤ} {d : BiomeDefinition} {gt : Tile}
    {fx fy radius : ℤ} {g : Grid} {y x : ℤ} {o : Oracle} {g₁ : Grid} {o₁ : Oracle}
    (hP : BorderOk width height d gt g)
    (h : forestCell width height d fx fy radius g y x o = some (g₁, o₁)) :
    BorderOk width height d gt g₁ := by
  unfold forestCell at h
  split at h
  · exact (pure_eq_some h).1 ▸ hP
  · rename_i hnb
    split at h
    · obtain ⟨roll, o₂, -, h⟩ := bind_eq_some h
      split at h
      · obtain ⟨tn, o₃, -, h⟩ := bind_eq_some h
        cases tn with
        | none => exact (pure_eq_some h).1 ▸ hP
        | some nm =>
          cases hlk : List.lookup nm d.tiles with
          | none =>
            simp only [hlk] at h
            exact absurd h (fun hh => Option.noConfusion hh)
          | some tl =>
            simp only [hlk] at h
            have hge := (pure_eq_some h).1
            subst hge
            intro x₁ y₁ t hb hc
            have hne : x₁ ≠ x ∨ y₁ ≠ y := by
              by_contra hcon
              push_neg at hcon
              exact hnb (hcon.1 ▸ hcon.2 ▸ hb)
            rw [gridGet_gridSet_ne hne] at hc
            exact hP x₁ y₁ t hb hc
      · exact (pure_eq_some h).1 ▸ hP
    · exact (pure_eq_some h).1 ▸ hP

theorem forestCluster_border {width height : ℤ} {d : BiomeDefinition} {gt : Tile}
    {g : Grid} {o : Oracle} {g₁ : Grid} {o₁ : Oracle}
    (hP : BorderOk width height d gt g)
    (h : forestCluster width height d g o = some (g₁, o₁)) :
    BorderOk width height d gt g₁ := by
  unfold forestCluster at h
  obtain ⟨fx, o₂, -, h⟩ := bind_eq_some h
  obtain ⟨fy, o₃, -, h⟩ := bind_eq_some h
  obtain ⟨radius, o₄, -, h⟩ := bind_eq_some h
  exact mFold_invariant (BorderOk width height d gt)
    (fun c y o₅ c₁ o₆ hPc _ hstep =>
      mFold_invariant (BorderOk width height d gt)
        (fun c₂ x o₇ c₃ o₈ hPc₂ _ hstep₂ => forestCell_border hPc₂ hstep₂) hPc hstep)
    hP h

theorem scatterPlace_border {width height : ℤ} {d : BiomeDefinition} {gt : Tile}
    {r : ScatterRule} {tl : Tile} {g : Grid} {o : Oracle} {g₁ : Grid} {o₁ : Oracle}
    (hP : BorderOk width height d gt g) (hr : r ∈ d.scatter_rules)
    (hlk : List.lookup r.tile d.tiles = some tl)
    (h : scatterPlace width height r tl g o = some (g₁, o₁)) :
    BorderOk width height d gt g₁ := by
  unfold scatterPlace at h
  obtain ⟨x, o₂, -, h⟩ := bind_eq_some h
  obtain ⟨y, o₃, -, h⟩ := bind_eq_some h
  split at h
  · exact (pure_eq_some h).1 ▸ hP
  · rename_i hskip
    have hge := (pure_eq_some h).1
    subst hge
    cases hav : r.avoid_border with
    | true =>
      have hnb : ¬(x = 0 ∨ x = width - 1 ∨ y = 0 ∨ y = height - 1) := by
        intro hbxy
        exact hskip ⟨by rw [hav], hbxy⟩
      intro x₁ y₁ t hb hc
      have hne : x₁ ≠ x ∨ y₁ ≠ y := by
        by_contra hcon
        push_neg at hcon
        exact hnb (hcon.1 ▸ hcon.2 ▸ hb)
      rw [gridGet_gridSet_ne hne] at hc
      exact hP x₁ y₁ t hb hc
    | false =>
      intro x₁ y₁ t hb hc
      rcases gridGet_gridSet_cases hc with hteq | hold
      · exact Or.inr ⟨r, hr, hav, hteq ▸ hlk⟩
      · exact hP x₁ y₁ t hb hold

theorem scatterRule_border {width height : ℤ} {d : BiomeDefinition} {gt : Tile}
    {g : Grid} {r : ScatterRule} {o : Oracle} {g₁ : Grid} {o₁ : Oracle}
    (hP : BorderOk width height d gt g) (hr : r ∈ d.scatter_rules)
    (h : scatterRuleStep width height d g r o = some (g₁, o₁)) :
    BorderOk width height d gt g₁ := by
  unfold scatterRuleStep at h
  obtain ⟨count, o₂, -, h⟩ := bind_eq_some h
  cases hlk : List.lookup r.tile d.tiles with
  | none =>
    simp only [hlk] at h
    exact (pure_eq_some h).1 ▸ hP
  | some tl =>
    simp only [hlk] at h
    exact mFold_invariant (BorderOk width height d gt)
      (fun c a o₃ c₁ o₄ hPc _ hstep => scatterPlace_border hPc hr hlk hstep) hP h

/-- Border invariant of every grid `generate_map` returns. -/
theorem generate_map_border {width height : ℤ} {d : BiomeDefinition} {o : Oracle}
    {g : Grid} {o₁ : Oracle} {gt : Tile}
    (hground : List.lookup d.ground_tile d.tiles = some gt)
    (hg : generate_map width height d o = some (g, o₁)) :
    BorderOk width height d gt g := by
  simp only [generate_map, hground] at hg
  obtain ⟨nf, o₂, hnf, hg⟩ := bind_eq_some hg
  obtain ⟨g₁, o₃, hfold1, hg⟩ := bind_eq_some hg
  obtain ⟨g₂, o₄, hfold2, hg⟩ := bind_eq_some hg
  have hge := (pure_eq_some hg).1
  subst hge
  have hP0 : BorderOk width height d gt
      (List.replicate height.toNat (List.replicate width.toNat gt)) :=
    fun _ _ _ _ hc => Or.inl (gridGet_replicate hc)
  have hP1 : BorderOk width height d gt g₁ :=
    mFold_invariant (BorderOk width height d gt)
      (fun c a o₅ c₁ o₆ hPc _ hstep => forestCluster_border hPc hstep) hP0 hfold1
  exact mFold_invariant (BorderOk width height d gt)
    (fun c r o₅ c₁ o₆ hPc hmem hstep => scatterRule_border hPc hmem hstep) hP1 hfold2

/-- On an empty cache, `get_biome_definition` returns exactly what
`_build_biome` builds from the selected config. -/
theorem get_biome_definition_empty_cache {name : String} {d : BiomeDefinition}
    {c : BiomeCache} (hd : get_biome_definition [] name = some (d, c)) :
    build_biome name ((List.lookup name BIOME_CONFIGS).getD summer_config) = some d := by
  simp only [get_biome_definition, List.lookup_nil] at hd
  cases hb : build_biome name ((List.lookup name BIOME_CONFIGS).getD summer_config) with
  | none => rw [hb] at hd; cases hd
  | some d₀ =>
    rw [hb] at hd
    injection hd with hd
    rw [Prod.mk.injEq] at hd
    exact congrArg some hd.1

/-- Border cells of a `generate_map` result hold no forest tile, given the
catalog facts that the ground tile and every borderless scatter tile differ
from every forest tile of the config. -/
theorem border_forest_free_of_config (width height : ℤ) (name : String)
    (cfg : BiomeConfig) {d : BiomeDefinition} {o : Oracle} {g : Grid} {o₁ : Oracle}
    (hbb : build_biome name cfg = some d)
    (hg : generate_map width height d o = some (g, o₁))
    (hok : ∃ ts, build_tileset cfg = some ts ∧
      ∃ gt, List.lookup ts.2 ts.1 = some gt ∧
        (∀ f ∈ cfg.forest_tiles, List.lookup f ts.1 ≠ some gt) ∧
        (∀ r ∈ cfg.scatter_rules, r.avoid_border = false →
          ∀ f ∈ cfg.forest_tiles, List.lookup r.tile ts.1 ≠ List.lookup f ts.1)) :
    ∀ x y t, (x = 0 ∨ x = width - 1 ∨ y = 0 ∨ y = height - 1) →
      gridGet g y x = some t → ∀ f ∈ d.forest_tiles, List.lookup f d.tiles ≠ some t := by
  obtain ⟨ts, hts, hdd⟩ := build_biome_eq_fields _ _ _ hbb
  obtain ⟨ts₁, hts₁, gt, hgt, hgfor, hscat⟩ := hok
  rw [hts] at hts₁
  injection hts₁ with e
  subst e
  subst hdd
  intro x y t hb hc f hf
  have hB := @generate_map_border width height _ o g o₁ gt hgt hg
  have hBT := hB x y t hb hc
  intro heq
  rcases hBT with rfl | ⟨r, hr, hav, hlk⟩
  · exact hgfor f hf heq
  · exact hscat r hr hav f hf (hlk.trans heq.symm)

/-- C3: for every width and height and every biome definition of the catalog
(obtained through `get_biome_definition` from a fresh cache, the unknown-id
fallback included), every grid `generate_map` returns has no forest tile on
the outer border: a cell at `x ∈ {0, width-1}` or `y ∈ {0, height-1}` never
holds the tile of an entry of that biome's forest-tile set, including via
later scatter-rule overwrites. -/
theorem generate_map_border_forest_free (width height : ℤ) (name : String)
    (d : BiomeDefinition) (c : BiomeCache) (o : Oracle) (g : Grid) (o₁ : Oracle)
    (hd : get_biome_definition [] name = some (d, c))
    (hg : generate_map width height d o = some (g, o₁)) :
    ∀ x y t, (x = 0 ∨ x = width - 1 ∨ y = 0 ∨ y = height - 1) →
      gridGet g y x = some t → ∀ f ∈ d.forest_tiles, List.lookup f d.tiles ≠ some t := by
  have hbb := get_biome_definition_empty_cache hd
  rcases lookup_BIOME_CONFIGS_cases name with hcfg | hcfg | hcfg <;> rw [hcfg] at hbb
  · exact border_forest_free_of_config width height name summer_config hbb hg
      ⟨_, rfl, _, rfl, by decide, by decide⟩
  · exact border_forest_free_of_config width height name winter_config hbb hg
      ⟨_, rfl, _, rfl, by decide, by decide⟩
  · exact border_forest_free_of_config width height name drought_config hbb hg
      ⟨_, rfl, _, rfl, by decide, by decide⟩

/-- Witness for C3: a concrete successful run of `generate_map` on a 3×3
summer grid with the all-zero oracle, together with the border property. -/
theorem generate_map_border_forest_free_witness :
    ∃ d c g o₁,
      get_biome_definition [] "summer" = some (d, c) ∧
      generate_map 3 3 d (fun _ => 0) = some (g, o₁) ∧
      ∀ x y t, (x = 0 ∨ x = 3 - 1 ∨ y = 0 ∨ y = 3 - 1) →
        gridGet g y x = some t → ∀ f ∈ d.forest_tiles, List.lookup f d.tiles ≠ some t := by
  have h₁ : (get_biome_definition [] "summer").isSome = true := by decide
  have h₂ : ((get_biome_definition [] "summer").bind
      (fun p => generate_map 3 3 p.1 (fun _ => 0))).isSome = true := by decide
  obtain ⟨⟨d, c⟩, hd⟩ := Option.isSome_iff_exists.mp h₁
  rw [hd, Option.some_bind] at h₂
  obtain ⟨⟨g, o₁⟩, hg⟩ := Option.isSome_iff_exists.mp h₂
  exact ⟨d, c, g, o₁, hd, hg,
    generate_map_border_forest_free 3 3 "summer" d c (fun _ => 0) g o₁ hd hg⟩

/-- src/engine/constants.py: screen and world dimensions. -/
def SCREEN_WIDTH : ℤ := 85

def SCREEN_HEIGHT : ℤ := 50

def MAP_WIDTH : ℤ := SCREEN_WIDTH

def MAP_HEIGHT : ℤ := SCREEN_HEIGHT

def WORLD_COLUMNS : ℤ := 50

def WORLD_ROWS : ℤ := 50

/-- Python dict assignment for `(ℤ × ℤ)`-keyed dicts (footprints, screens):
replaces in place when the key is present, else appends. -/
def dictSetZ {α : Type} (d : List ((ℤ × ℤ) × α)) (k : ℤ × ℤ) (v : α) :
    List ((ℤ × ℤ) × α) :=
  match d with
  | [] => [(k, v)]
  | (k₀, v₀) :: rest => if k₀ = k then (k, v) :: rest else (k₀, v₀) :: dictSetZ rest k v

theorem lookup_dictSetZ_self {α : Type} (d : List ((ℤ × ℤ) × α)) (k : ℤ × ℤ) (v : α) :
    List.lookup k (dictSetZ d k v) = some v := by
  induction d with
  | nil => simp [dictSetZ, List.lookup]
  | cons kv rest ih =>
    obtain ⟨k₀, v₀⟩ := kv
    by_cases h : k₀ = k
    · subst h; simp [dictSetZ, List.lookup]
    · simp only [dictSetZ, if_neg h, List.lookup]
      have : (k == k₀) = false := by
        simpa [beq_iff_eq] using fun hk => h hk.symm
      simp [this, ih]

/-- src/engine/player.py `Player`: position, owning screen and the per-screen
footprint store `_footprints`.  The stats, inventory and appearance fields of
the Python class are not modelled (nothing embedded here reads them). -/
structure Player where
  x : ℤ
  y : ℤ
  screen_x : ℤ
  screen_y : ℤ
  footprints : List ((ℤ × ℤ) × List (ℤ × ℤ)) := []

/-- src/engine/player.py `Player.get_footprints` (lines 102-103). -/
def Player.get_footprints (p : Player) (screen_coords : ℤ × ℤ) : List (ℤ × ℤ) :=
  (List.lookup screen_coords p.footprints).getD []

/-- src/engine/player.py `Player.leave_footprint` (lines 89-100): record a
visit to `position` on screen `screen_coords`.  A position already recorded
is first removed (`footprints.remove(position)`, the first occurrence) and
re-appended at the most-recent end; when a `limit` is given and exceeded, the
oldest entries are deleted from the front
(`del footprints[0 : len(footprints) - limit]`). -/
def Player.leave_footprint (p : Player) (screen_coords : ℤ × ℤ)
    (position : ℤ × ℤ) (limit : Option ℕ) : Player :=
  let fps := p.get_footprints screen_coords
  let fps := if position ∈ fps then fps.erase position else fps
  let fps := fps ++ [position]
  let fps :=
    match limit with
    | some lim => if lim < fps.length then fps.drop (fps.length - lim) else fps
    | none => fps
  { p with footprints := dictSetZ p.footprints screen_coords fps }

/-- C5: with cap 2 and an empty per-screen list, recording visits A, B, A, C
yields exactly [A, C] — the revisit of A moves it to the most-recent end
instead of duplicating it, and B, the oldest entry, is evicted from the front
when the cap is exceeded. -/
theorem leave_footprint_recency (p : Player) (sc A B C : ℤ × ℤ)
    (h0 : p.get_footprints sc = [])
    (hAB : A ≠ B) (hAC : A ≠ C) (hBC : B ≠ C) :
    ((((p.leave_footprint sc A (some 2)).leave_footprint sc B
        (some 2)).leave_footprint sc A (some 2)).leave_footprint sc C
        (some 2)).get_footprints sc = [A, C] := by
  have key : ∀ (q : Player) (pos : ℤ × ℤ),
      (q.leave_footprint sc pos (some 2)).get_footprints sc =
        (fun fps => if 2 < fps.length then fps.drop (fps.length - 2) else fps)
          ((if pos ∈ q.get_footprints sc then (q.get_footprints sc).erase pos
            else q.get_footprints sc) ++ [pos]) := by
    intro q pos
    unfold Player.leave_footprint Player.get_footprints
    simp [lookup_dictSetZ_self]
  have step1 : (p.leave_footprint sc A (some 2)).get_footprints sc = [A] := by
    rw [key, h0]
    simp
  have step2 : ((p.leave_footprint sc A (some 2)).leave_footprint sc B
      (some 2)).get_footprints sc = [A, B] := by
    rw [key, step1]
    simp [Ne.symm hAB]
  have step3 : (((p.leave_footprint sc A (some 2)).leave_footprint sc B
      (some 2)).leave_footprint sc A (some 2)).get_footprints sc = [B, A] := by
    rw [key, step2]
    simp
  rw [key, step3]
  simp [Ne.symm hBC, Ne.symm hAC]

/-- Witness for C5 at concrete distinct positions. -/
theorem leave_footprint_recency_witness :
    (((((⟨0, 0, 0, 0, []⟩ : Player).leave_footprint (0, 0) (1, 1)
        (some 2)).leave_footprint (0, 0) (2, 2)
        (some 2)).leave_footprint (0, 0) (1, 1)
        (some 2)).leave_footprint (0, 0) (3, 3)
        (some 2)).get_footprints (0, 0) = [(1, 1), (3, 3)] :=
  leave_footprint_recency ⟨0, 0, 0, 0, []⟩ (0, 0) (1, 1) (2, 2) (3, 3)
    rfl (by decide) (by decide) (by decide)

/-- Modelled from the spec: `BIOME_TRANSITION_SCREENS` is imported by
src/engine/world.py from engine.constants, but no file under src/ defines it;
the spec describes it as the transition width in screens ("smoothstep
transitions of a configurable width (in screens)").  It is a parameter
(`span`) here; every theorem below holds for every value of it. -/
def BIOME_TRANSITION_SCREENS_isParameter : Prop := True

/-- src/engine/world.py `_smoothstep` (lines 182-186). -/
def smoothstep (edge0 edge1 value : ℚ) : ℚ :=
  if edge0 = edge1 then (if edge1 ≤ value then 1 else 0)
  else
    let t := max 0 (min 1 ((value - edge0) / (edge1 - edge0)))
    t * t * (3 - 2 * t)

/-- src/engine/world.py `_normalized_height` (lines 189-192). -/
def normalized_height (tile_y total_tiles : ℤ) : ℚ :=
  if total_tiles ≤ 1 then 0 else (tile_y : ℚ) / ((total_tiles : ℚ) - 1)

/-- The unnormalized winter/summer/drought weights of
`_biome_weights_for_height` (src/engine/world.py lines 195-206), with the
spec-modelled `BIOME_TRANSITION_SCREENS` as the parameter `span`. -/
def biome_weights_pre (span : ℤ) (normalized_y : ℚ) : ℚ × ℚ × ℚ :=
  let winter_limit : ℚ := 1 / 3
  let summer_limit : ℚ := 2 / 3
  let transition_span : ℚ := ((max 1 span : ℤ) : ℚ)
  let half_band := transition_span / (WORLD_ROWS : ℚ) / 2
  let winter_falloff :=
    smoothstep (winter_limit - half_band) (winter_limit + half_band) normalized_y
  let drought_rise :=
    smoothstep (summer_limit - half_band) (summer_limit + half_band) normalized_y
  let winter_weight := max 0 (1 - winter_falloff)
  let drought_weight := max 0 drought_rise
  let summer_weight := max 0 (1 - winter_weight - drought_weight)
  (winter_weight, summer_weight, drought_weight)

/-- The `total` of `_biome_weights_for_height` (line 208). -/
def weight_total (span : ℤ) (y : ℚ) : ℚ :=
  (biome_weights_pre span y).1 + (biome_weights_pre span y).2.1 +
    (biome_weights_pre span y).2.2

/-- src/engine/world.py `_biome_weights_for_height` (lines 195-216): clamp
the three band weights non-negative and renormalize them to sum to 1, with
the single-biome fallback when the total is non-positive. -/
def biome_weights_for_height (span : ℤ) (y : ℚ) : List (String × ℚ) :=
  if weight_total span y ≤ 0 then [("summer", 1)]
  else
    [("winter", (biome_weights_pre span y).1 / weight_total span y),
     ("summer", (biome_weights_pre span y).2.1 / weight_total span y),
     ("drought", (biome_weights_pre span y).2.2 / weight_total span y)]

theorem biome_weights_pre_nonneg (span : ℤ) (y : ℚ) :
    0 ≤ (biome_weights_pre span y).1 ∧ 0 ≤ (biome_weights_pre span y).2.1 ∧
      0 ≤ (biome_weights_pre span y).2.2 := by
  unfold biome_weights_pre
  exact ⟨le_max_left _ _, le_max_left _ _, le_max_left _ _⟩

/-- C2: for every normalized vertical position (and every value of the
spec-modelled transition-width constant `BIOME_TRANSITION_SCREENS`), the
biome-weight map has only non-negative weights and the weights sum to exactly
1; and whenever normalization is degenerate (raw total non-positive) the
function returns the single biome `"summer"` at weight 1. -/
theorem biome_weights_nonneg_sum_one (span : ℤ) (y : ℚ) :
    (∀ w ∈ biome_weights_for_height span y, 0 ≤ w.2) ∧
    ((biome_weights_for_height span y).map Prod.snd).sum = 1 ∧
    (weight_total span y ≤ 0 → biome_weights_for_height span y = [("summer", 1)]) := by
  obtain ⟨h1, h2, h3⟩ := biome_weights_pre_nonneg span y
  unfold biome_weights_for_height
  by_cases htot : weight_total span y ≤ 0
  · rw [if_pos htot]
    refine ⟨?_, by simp, fun _ => rfl⟩
    intro w hw
    rw [List.mem_singleton] at hw
    rw [hw]
    norm_num
  · rw [if_neg htot]
    have htpos : 0 < weight_total span y := lt_of_not_le htot
    have ht0 : weight_total span y ≠ 0 := ne_of_gt htpos
    refine ⟨?_, ?_, fun hle => absurd hle htot⟩
    · intro w hw
      rcases List.mem_cons.mp hw with rfl | hw
      · exact div_nonneg h1 htpos.le
      rcases List.mem_cons.mp hw with rfl | hw
      · exact div_nonneg h2 htpos.le
      rw [List.mem_singleton] at hw
      rw [hw]
      exact div_nonneg h3 htpos.le
    · show (biome_weights_pre span y).1 / weight_total span y +
        ((biome_weights_pre span y).2.1 / weight_total span y +
          ((biome_weights_pre span y).2.2 / weight_total span y + 0)) = 1
      rw [add_zero, div_add_div_same, div_add_div_same, ← add_assoc]
      exact div_self ht0

/-- src/engine/battle.py `Enemy` (lines 11-31): the dataclass fields, minus
the `sprite` runtime-asset field.  Note: the dataclass declares NO `tile_key`
field.  `__post_init__` sets `hp = max_hp` on construction. -/
structure Enemy where
  name : String
  char : String
  fg : Color
  bg : Color
  max_hp : ℤ
  attack_min : ℤ
  attack_max : ℤ
  reward_talents : ℤ
  stats : List (String × ℤ)
  x : ℤ
  y : ℤ
  screen_x : ℤ
  screen_y : ℤ
  hp : Option ℤ := none
  defeated : Bool := false

/-- src/engine/characters.py `Character` (lines 13-28): the dataclass fields,
minus the `inventory` and `sprite` fields (nothing embedded here reads
them).  Unlike `Enemy`, this dataclass does declare `tile_key`. -/
structure Character where
  name : String
  char : String
  fg : Color
  bg : Color
  stats : List (String × ℤ)
  x : ℤ
  y : ℤ
  screen_x : ℤ
  screen_y : ℤ
  tile_key : Option String := none

/-- src/engine/world.py `WorldScreen` (lines 28-35). -/
structure WorldScreen where
  tiles : List (String × Tile)
  terrain : Grid
  biome : String
  biome_weights : List (String × ℚ)
  enemies : List Enemy
  characters : List Character

/-- src/engine/world.py `World` (lines 38-43): the screen map (an
insertion-ordered dict keyed by `(column, row)`), the spawn location and the
elapsed time. -/
structure World where
  screens : List ((ℤ × ℤ) × WorldScreen)
  spawn_screen : ℤ × ℤ
  spawn_position : ℤ × ℤ
  time_elapsed : ℚ := 0

/-- `World.total_width` (lines 45-46). -/
def World.total_width (_w : World) : ℤ := MAP_WIDTH * WORLD_COLUMNS

/-- `World.total_height` (lines 48-49). -/
def World.total_height (_w : World) : ℤ := MAP_HEIGHT * WORLD_ROWS

/-- src/engine/world.py `World._clamp_camera` (lines 74-77): clamp both axes
independently into `[0, max(0, total_extent - window_extent)]`. -/
def World.clamp_camera (w : World) (x y width height : ℤ) : ℤ × ℤ :=
  let max_x := max 0 (w.total_width - width)
  let max_y := max 0 (w.total_height - height)
  (max 0 (min x max_x), max 0 (min y max_y))

/-- src/engine/world.py `World._screens_in_rect` (lines 79-96): the screen
coordinates whose rectangle intersects the given camera rectangle, row by
row.  `/` on ℤ is floor division for the positive divisors used here, as in
Python. -/
def World.screens_in_rect (w : World) (start_x start_y width height : ℤ) :
    List (ℤ × ℤ) :=
  if width ≤ 0 ∨ height ≤ 0 then []
  else
    let end_x := min w.total_width (start_x + width)
    let end_y := min w.total_height (start_y + height)
    let left := start_x / MAP_WIDTH
    let right := (end_x - 1) / MAP_WIDTH
    let top := start_y / MAP_HEIGHT
    let bottom := (end_y - 1) / MAP_HEIGHT
    (intRange top (bottom + 1)).flatMap fun sy =>
      (intRange left (right + 1)).map fun sx => (sx, sy)

/-- src/engine/world.py `ViewportData` (lines 172-179). -/
structure ViewportData where
  tiles : Grid
  player_position : ℤ × ℤ
  camera : ℤ × ℤ
  enemies : List (Enemy × ℤ × ℤ)
  characters : List (Character × ℤ × ℤ)
  footprints : List (ℤ × ℤ × Tile)

/-- Sequence a row of fallible lookups, as the Python loops do cell by cell
(the first raised `KeyError`/`IndexError` aborts). -/
def seqOpt {α : Type} : List (Option α) → Option (List α)
  | [] => some []
  | none :: _ => none
  | some a :: rest => (seqOpt rest).map (fun l => a :: l)

/-- The camera origin `build_viewport` computes (src/engine/world.py lines
105-109): centred on the player's flattened world coordinate, then clamped by
`_clamp_camera`. -/
def World.viewport_camera (w : World) (world_x world_y width height : ℤ) : ℤ × ℤ :=
  w.clamp_camera (world_x - width / 2) (world_y - height / 2) width height

/-- One stitched row of the viewport tile grid (src/engine/world.py lines
112-123): the owning screen of each cell is found by floor division, the
in-screen offset by modulo, and the cell is copied from that screen. -/
def viewport_row (w : World) (camera_x camera_y local_y width : ℤ) :
    Option (List Tile) :=
  let world_y_coord := camera_y + local_y
  let screen_y := world_y_coord / MAP_HEIGHT
  let tile_y := world_y_coord % MAP_HEIGHT
  seqOpt ((intRange 0 width).map fun local_x =>
    let world_x_coord := camera_x + local_x
    let screen_x := world_x_coord / MAP_WIDTH
    let tile_x := world_x_coord % MAP_WIDTH
    (List.lookup (screen_x, screen_y) w.screens).bind fun screen =>
      gridGet screen.terrain tile_y tile_x)

/-- The per-screen accumulator of `build_viewport` during entity/footprint
projection. -/
abbrev ViewportAcc : Type :=
  List (ℤ × ℤ × Tile) × List (Enemy × ℤ × ℤ) × List (Character × ℤ × ℤ)

/-- Projection of one overlapped screen's footprints, enemies and characters
into window-local coordinates (src/engine/world.py lines 129-157), appended
to the accumulator.  Only entries strictly inside the window are kept;
defeated enemies are skipped. -/
def viewport_entities_step (w : World) (player : Player)
    (camera_x camera_y width height : ℤ) (acc : ViewportAcc) (coords : ℤ × ℤ) :
    Option ViewportAcc := do
  let screen ← List.lookup coords w.screens
  let base_x := coords.1 * MAP_WIDTH
  let base_y := coords.2 * MAP_HEIGHT
  let fps :=
    match List.lookup "footprint" screen.tiles with
    | some footprint_tile =>
      acc.1 ++ (player.get_footprints coords).filterMap fun fp =>
        let world_fx := base_x + fp.1
        let world_fy := base_y + fp.2
        if camera_x ≤ world_fx ∧ world_fx < camera_x + width ∧
            camera_y ≤ world_fy ∧ world_fy < camera_y + height then
          some (world_fx - camera_x, world_fy - camera_y, footprint_tile)
        else none
    | none => acc.1
  let ens := acc.2.1 ++ screen.enemies.filterMap fun enemy =>
    if enemy.defeated = false then
      let world_ex := base_x + enemy.x
      let world_ey := base_y + enemy.y
      if camera_x ≤ world_ex ∧ world_ex < camera_x + width ∧
          camera_y ≤ world_ey ∧ world_ey < camera_y + height then
        some (enemy, world_ex - camera_x, world_ey - camera_y)
      else none
    else none
  let chs := acc.2.2 ++ screen.characters.filterMap fun character =>
    let world_cx := base_x + character.x
    let world_cy := base_y + character.y
    if camera_x ≤ world_cx ∧ world_cx < camera_x + width ∧
        camera_y ≤ world_cy ∧ world_cy < camera_y + height then
      some (character, world_cx - camera_x, world_cy - camera_y)
    else none
  pure (fps, ens, chs)

/-- src/engine/world.py `World.build_viewport` (lines 98-169): compute the
clamped camera, stitch the tile window row by row (`viewport_row`), then
project entities and footprints of every overlapped screen
(`viewport_entities_step`).  `none` models the `KeyError`/`IndexError` of an
out-of-range screen or tile access.  (`if enemy` is always truthy for a
dataclass instance, and `if footprint_tile` is the presence test of the
non-empty footprint tile dict, so both are modelled structurally.) -/
def World.build_viewport (w : World) (player : Player) (width height : ℤ) :
    Option ViewportData := do
  let world_x := player.screen_x * MAP_WIDTH + player.x
  let world_y := player.screen_y * MAP_HEIGHT + player.y
  let cam := w.viewport_camera world_x world_y width height
  let tiles ← seqOpt ((intRange 0 height).map fun local_y =>
    viewport_row w cam.1 cam.2 local_y width)
  let proj ← (w.screens_in_rect cam.1 cam.2 width height).foldlM
    (viewport_entities_step w player cam.1 cam.2 width height) ([], [], [])
  pure {
    tiles := tiles
    player_position := (world_x - cam.1, world_y - cam.2)
    camera := (cam.1, cam.2)
    enemies := proj.2.1
    characters := proj.2.2
    footprints := proj.1 }

/-- C6: the camera origin computed by `build_viewport` (centring followed by
`_clamp_camera`) satisfies `0 ≤ camera_x ≤ max 0 (total_width - width)` and
`0 ≤ camera_y ≤ max 0 (total_height - height)` on each axis independently for
every player world position; and a viewport centred on world coordinate
`(0, 0)` yields camera origin exactly `(0, 0)`, never negative. -/
theorem viewport_camera_clamped (w : World) (world_x world_y width height : ℤ)
    (hw : 0 < width) (hh : 0 < height) :
    (0 ≤ (w.viewport_camera world_x world_y width height).1 ∧
      (w.viewport_camera world_x world_y width height).1 ≤
        max 0 (w.total_width - width)) ∧
    (0 ≤ (w.viewport_camera world_x world_y width height).2 ∧
      (w.viewport_camera world_x world_y width height).2 ≤
        max 0 (w.total_height - height)) ∧
    w.viewport_camera 0 0 width height = (0, 0) := by
  unfold World.viewport_camera World.clamp_camera World.total_width World.total_height
  simp only [Prod.mk.injEq]
  refine ⟨⟨?_, ?_⟩, ⟨?_, ?_⟩, ?_, ?_⟩ <;> omega

/-- Witness for C6 on a concrete world and window. -/
theorem viewport_camera_clamped_witness :
    (0 ≤ ((⟨[], (0, 0), (0, 0), 0⟩ : World).viewport_camera 7 9 1 1).1 ∧
      ((⟨[], (0, 0), (0, 0), 0⟩ : World).viewport_camera 7 9 1 1).1 ≤
        max 0 ((⟨[], (0, 0), (0, 0), 0⟩ : World).total_width - 1)) ∧
    (0 ≤ ((⟨[], (0, 0), (0, 0), 0⟩ : World).viewport_camera 7 9 1 1).2 ∧
      ((⟨[], (0, 0), (0, 0), 0⟩ : World).viewport_camera 7 9 1 1).2 ≤
        max 0 ((⟨[], (0, 0), (0, 0), 0⟩ : World).total_height - 1)) ∧
    (⟨[], (0, 0), (0, 0), 0⟩ : World).viewport_camera 0 0 1 1 = (0, 0) :=
  viewport_camera_clamped ⟨[], (0, 0), (0, 0), 0⟩ 7 9 1 1 (by decide) (by decide)

theorem Oracle.drop_drop (o : Oracle) (j k : ℕ) : (o.drop j).drop k = o.drop (k + j) :=
  funext fun m => congrArg o (by omega)

theorem randint_eq (lo hi : ℤ) (o : Oracle) (h : lo ≤ hi) :
    randint lo hi o = some (lo + ((o.head % (hi - lo + 1).toNat : ℕ) : ℤ), o.tail) := by
  unfold randint
  rw [if_neg (by omega)]

/-- One successful step feeds its result into the continuation. -/
theorem bind_some_step {α β : Type} (x : RandM α) (f : α → RandM β) (o : Oracle)
    (a : α) (o₁ : Oracle) (hx : x o = some (a, o₁)) :
    (x >>= f) o = f a o₁ := by
  show (x o).bind (fun p => f p.1 p.2) = f a o₁
  rw [hx]
  rfl

/-- The `while attempts < 500` loop of `find_random_walkable`
(src/engine/world.py lines 240-249), with the remaining attempts as fuel:
draw a coordinate pair, skip excluded coordinates, return the first walkable
hit, and fall back to `(0, 0)` when the attempts run out. -/
def find_random_walkable_go (game_map : Grid) (width height : ℤ)
    (exclude : List (ℤ × ℤ)) : ℕ → RandM (ℤ × ℤ)
  | 0 => pure (0, 0)
  | n + 1 => do
    let x ← randint 0 (width - 1)
    let y ← randint 0 (height - 1)
    if (x, y) ∈ exclude then
      find_random_walkable_go game_map width height exclude n
    else if walkableAt game_map y x then
      pure (x, y)
    else
      find_random_walkable_go game_map width height exclude n

/-- src/engine/world.py `find_random_walkable` (lines 234-250).  `none`
models the `IndexError` of `len(game_map[0])` on an empty map. -/
def find_random_walkable (game_map : Grid) (exclude : List (ℤ × ℤ)) :
    RandM (ℤ × ℤ) :=
  match game_map[0]? with
  | none => mfail
  | some row0 =>
    find_random_walkable_go game_map (row0.length : ℤ) (game_map.length : ℤ)
      exclude 500

theorem find_random_walkable_go_spec (g : Grid) (width height : ℤ)
    (exclude : List (ℤ × ℤ)) (hw : 1 ≤ width) (hh : 1 ≤ height) :
    ∀ (n : ℕ) (o : Oracle), ∃ res o₁ k,
      find_random_walkable_go g width height exclude n o = some (res, o₁) ∧
      k ≤ n ∧ o₁ = o.drop (2 * k) ∧
      ((walkableAt g res.2 res.1 = true ∧ res ∉ exclude) ∨ res = (0, 0)) := by
  intro n
  induction n with
  | zero => exact fun o => ⟨(0, 0), o, 0, rfl, Nat.le_refl 0, rfl, Or.inr rfl⟩
  | succ m ih =>
    intro o
    have h1 : find_random_walkable_go g width height exclude (m + 1) o =
        (if ((0 + ((o.head % (width - 1 - 0 + 1).toNat : ℕ) : ℤ)),
             (0 + ((o.tail.head % (height - 1 - 0 + 1).toNat : ℕ) : ℤ))) ∈ exclude then
          find_random_walkable_go g width height exclude m
        else if walkableAt g
            (0 + ((o.tail.head % (height - 1 - 0 + 1).toNat : ℕ) : ℤ))
            (0 + ((o.head % (width - 1 - 0 + 1).toNat : ℕ) : ℤ)) then
          pure ((0 + ((o.head % (width - 1 - 0 + 1).toNat : ℕ) : ℤ)),
            (0 + ((o.tail.head % (height - 1 - 0 + 1).toNat : ℕ) : ℤ)))
        else
          find_random_walkable_go g width height exclude m) (o.drop 2) := by
      show ((randint 0 (width - 1)) >>= fun x => (randint 0 (height - 1)) >>=
        fun y => _) o = _
      rw [bind_some_step _ _ _ _ _ (randint_eq 0 (width - 1) o (by omega))]
      rw [bind_some_step _ _ _ _ _ (randint_eq 0 (height - 1) o.tail (by omega))]
      rfl
    rw [h1]
    split
    · obtain ⟨res, o₁, k, hgo, hk, ho, hres⟩ := ih (o.drop 2)
      refine ⟨res, o₁, k + 1, hgo, by omega, ?_, hres⟩
      rw [ho, Oracle.drop_drop]
      exact congrArg o.drop (by omega)
    · split
      · rename_i hnex hwalk
        exact ⟨_, _, 1, rfl, by omega, rfl, Or.inl ⟨hwalk, hnex⟩⟩
      · obtain ⟨res, o₁, k, hgo, hk, ho, hres⟩ := ih (o.drop 2)
        refine ⟨res, o₁, k + 1, hgo, by omega, ?_, hres⟩
        rw [ho, Oracle.drop_drop]
        exact congrArg o.drop (by omega)

/-- When nothing in a 1×1 map is walkable, every attempt fails and the loop
exhausts its full fuel, falling back to `(0, 0)`. -/
theorem find_random_walkable_go_blocked (t : Tile) (ht : t.walkable = false) :
    ∀ (n : ℕ) (o : Oracle),
      find_random_walkable_go [[t]] 1 1 [] n o = some ((0, 0), o.drop (2 * n)) := by
  intro n
  induction n with
  | zero => exact fun o => rfl
  | succ m ih =>
    intro o
    have h1 : find_random_walkable_go [[t]] 1 1 [] (m + 1) o =
        (if (((0 : ℤ) + ((o.head % ((1 : ℤ) - 1 - 0 + 1).toNat : ℕ) : ℤ)),
             ((0 : ℤ) + ((o.tail.head % ((1 : ℤ) - 1 - 0 + 1).toNat : ℕ) : ℤ))) ∈
            ([] : List (ℤ × ℤ)) then
          find_random_walkable_go [[t]] 1 1 [] m
        else if walkableAt [[t]]
            ((0 : ℤ) + ((o.tail.head % ((1 : ℤ) - 1 - 0 + 1).toNat : ℕ) : ℤ))
            ((0 : ℤ) + ((o.head % ((1 : ℤ) - 1 - 0 + 1).toNat : ℕ) : ℤ)) then
          pure (((0 : ℤ) + ((o.head % ((1 : ℤ) - 1 - 0 + 1).toNat : ℕ) : ℤ)),
            ((0 : ℤ) + ((o.tail.head % ((1 : ℤ) - 1 - 0 + 1).toNat : ℕ) : ℤ)))
        else
          find_random_walkable_go [[t]] 1 1 [] m) (o.drop 2) := by
      show ((randint 0 ((1 : ℤ) - 1)) >>= fun x => (randint 0 ((1 : ℤ) - 1)) >>=
        fun y => _) o = _
      rw [bind_some_step _ _ _ _ _ (randint_eq 0 ((1 : ℤ) - 1) o (by omega))]
      rw [bind_some_step _ _ _ _ _ (randint_eq 0 ((1 : ℤ) - 1) o.tail (by omega))]
      rfl
    rw [h1]
    have hmod : ∀ k : ℕ, (0 : ℤ) + ((k % ((1 : ℤ) - 1 - 0 + 1).toNat : ℕ) : ℤ) = 0 := by
      intro k
      have : ((1 : ℤ) - 1 - 0 + 1).toNat = 1 := by decide
      rw [this, Nat.mod_one]
      rfl
    rw [hmod, hmod]
    have hwalk : walkableAt [[t]] 0 0 = false := by
      simp [walkableAt, gridGet, ht]
    rw [if_neg (List.not_mem_nil _), hwalk]
    simp only [Bool.false_eq_true, if_false]
    rw [ih (o.drop 2), Oracle.drop_drop]
    exact congrArg (fun k => some (((0 : ℤ), (0 : ℤ)), o.drop k)) (by omega)

/-- C7: `find_random_walkable` performs at most 500 random coordinate draws
(each a pair of `randint` calls, so the oracle advances by at most 1000
values); it always returns without raising, with either a walkable
non-excluded coordinate or the fallback `(0, 0)`; and the fallback may itself
be non-walkable (on a map whose only tile is non-walkable, the loop exhausts
all 500 draws and returns the non-walkable `(0, 0)`). -/
theorem find_random_walkable_bounded (g : Grid) (row0 : List Tile)
    (exclude : List (ℤ × ℤ)) (o : Oracle)
    (h0 : g[0]? = some row0) (hr : row0 ≠ []) :
    (∃ res o₁ k, find_random_walkable g exclude o = some (res, o₁) ∧
      k ≤ 500 ∧ o₁ = o.drop (2 * k) ∧
      ((walkableAt g res.2 res.1 = true ∧ res ∉ exclude) ∨ res = (0, 0))) ∧
    (∀ (t : Tile), t.walkable = false → ∀ o₂ : Oracle,
      find_random_walkable [[t]] [] o₂ = some ((0, 0), o₂.drop 1000) ∧
        walkableAt [[t]] 0 0 = false) := by
  constructor
  · have hg : g.length ≠ 0 := by
      intro hlen
      rw [List.getElem?_eq_none (by omega)] at h0
      cases h0
    have hspec := find_random_walkable_go_spec g (row0.length : ℤ) (g.length : ℤ)
      exclude (by have := List.length_pos.mpr hr; omega) (by omega) 500 o
    unfold find_random_walkable
    rw [h0]
    exact hspec
  · intro t ht o₂
    refine ⟨?_, by simp [walkableAt, gridGet, ht]⟩
    show find_random_walkable_go [[t]] ((1 : ℕ) : ℤ) ((1 : ℕ) : ℤ) [] 500 o₂ =
      some ((0, 0), o₂.drop 1000)
    exact find_random_walkable_go_blocked t ht 500 o₂

/-- Witness for C7 on a concrete 1×1 walkable map, the empty exclusion list
and the all-zero oracle. -/
theorem find_random_walkable_bounded_witness :
    (∃ res o₁ k, find_random_walkable
        [[{ char := ".", fg := none, bg := none, walkable := true,
            tile_id := "g" }]] [] (fun _ => 0) = some (res, o₁) ∧
      k ≤ 500 ∧ o₁ = Oracle.drop (fun _ => 0) (2 * k) ∧
      ((walkableAt
            [[{ char := ".", fg := none, bg := none, walkable := true,
                tile_id := "g" }]] res.2 res.1 = true ∧
            res ∉ ([] : List (ℤ × ℤ))) ∨ res = (0, 0))) ∧
    (∀ (t : Tile), t.walkable = false → ∀ o₂ : Oracle,
      find_random_walkable [[t]] [] o₂ = some ((0, 0), o₂.drop 1000) ∧
        walkableAt [[t]] 0 0 = false) :=
  find_random_walkable_bounded _ _ [] (fun _ => 0) rfl (by decide)

theorem MAP_WIDTH_eq : MAP_WIDTH = 85 := rfl

theorem MAP_HEIGHT_eq : MAP_HEIGHT = 50 := rfl

theorem WORLD_COLUMNS_eq : WORLD_COLUMNS = 50 := rfl

theorem WORLD_ROWS_eq : WORLD_ROWS = 50 := rfl

theorem total_width_eq (w : World) : w.total_width = 4250 := rfl

theorem total_height_eq (w : World) : w.total_height = 2500 := rfl

theorem intRangeGo_length (a : ℤ) (n : ℕ) : (intRangeGo a n).length = n := by
  induction n generalizing a with
  | zero => rfl
  | succ m ih => simp [intRangeGo, ih]

theorem intRange_length (a b : ℤ) : (intRange a b).length = (b - a).toNat := by
  unfold intRange
  exact intRangeGo_length a _

theorem seqOpt_length {α : Type} :
    ∀ {l : List (Option α)} {l₁ : List α}, seqOpt l = some l₁ → l₁.length = l.length := by
  intro l
  induction l with
  | nil =>
    intro l₁ h
    cases h
    rfl
  | cons a rest ih =>
    intro l₁ h
    cases a with
    | none => cases h
    | some b =>
      simp only [seqOpt] at h
      cases hr : seqOpt rest with
      | none => rw [hr] at h; cases h
      | some bs =>
        rw [hr] at h
        cases h
        simp [ih hr]

theorem seqOpt_map_some {α β : Type} {f : α → Option β} {l : List α}
    (h : ∀ a ∈ l, ∃ b, f a = some b) :
    ∃ l₁, seqOpt (l.map f) = some l₁ ∧ l₁.length = l.length ∧
      ∀ b ∈ l₁, ∃ a ∈ l, f a = some b := by
  induction l with
  | nil => exact ⟨[], rfl, rfl, by simp⟩
  | cons a as ih =>
    obtain ⟨b, hb⟩ := h a (List.mem_cons_self a as)
    obtain ⟨bs, hbs, hlen, hmem⟩ := ih (fun a₁ ha₁ => h a₁ (List.mem_cons_of_mem _ ha₁))
    refine ⟨b :: bs, ?_, by simp [hlen], ?_⟩
    · simp only [List.map_cons, hb, seqOpt, hbs, Option.map_some']
    · intro b₁ hb₁
      rcases List.mem_cons.mp hb₁ with rfl | hb₁
      · exact ⟨a, List.mem_cons_self a as, hb⟩
      · obtain ⟨a₁, ha₁, hfa₁⟩ := hmem b₁ hb₁
        exact ⟨a₁, List.mem_cons_of_mem _ ha₁, hfa₁⟩

theorem foldlM_option_some {α β : Type} {f : β → α → Option β} {l : List α}
    (h : ∀ c a, a ∈ l → ∃ c₁, f c a = some c₁) :
    ∀ b, ∃ c₁, List.foldlM f b l = some c₁ := by
  induction l with
  | nil => exact fun b => ⟨b, rfl⟩
  | cons a as ih =>
    intro b
    obtain ⟨c₁, hc⟩ := h b a (List.mem_cons_self a as)
    obtain ⟨c₂, hc₂⟩ := ih (fun c a₁ ha₁ => h c a₁ (List.mem_cons_of_mem _ ha₁)) c₁
    refine ⟨c₂, ?_⟩
    rw [List.foldlM_cons, hc]
    exact hc₂

theorem bind_some_step_opt {α β : Type} {x : Option α} {f : α → Option β} {a : α}
    (hx : x = some a) : x >>= f = f a := by
  rw [hx]
  rfl

/-- The `World` invariant of §3 of the design: every screen of the
`WORLD_COLUMNS × WORLD_ROWS` grid is present and its terrain matrix is
exactly `MAP_HEIGHT` rows of `MAP_WIDTH` tiles. -/
def WorldWF (w : World) : Prop :=
  ∀ sx sy : ℤ, 0 ≤ sx → sx < WORLD_COLUMNS → 0 ≤ sy → sy < WORLD_ROWS →
    ∃ s, List.lookup (sx, sy) w.screens = some s ∧
      s.terrain.length = MAP_HEIGHT.toNat ∧
      ∀ row ∈ s.terrain, row.length = MAP_WIDTH.toNat

theorem viewport_row_some {w : World} (hwf : WorldWF w) {camx camy ly width : ℤ}
    (hcx : 0 ≤ camx) (hcxw : camx + width ≤ 4250)
    (hcy : 0 ≤ camy + ly) (hcyh : camy + ly < 2500) :
    ∃ row, viewport_row w camx camy ly width = some row ∧
      row.length = width.toNat := by
  unfold viewport_row
  have hcells : ∀ lx ∈ intRange 0 width, ∃ t,
      (let world_x_coord := camx + lx
       let screen_x := world_x_coord / MAP_WIDTH
       let tile_x := world_x_coord % MAP_WIDTH
       (List.lookup (screen_x, (camy + ly) / MAP_HEIGHT) w.screens).bind fun screen =>
         gridGet screen.terrain ((camy + ly) % MAP_HEIGHT) tile_x) = some t := by
    intro lx hlx
    obtain ⟨hlx0, hlxw⟩ := mem_intRange hlx
    dsimp only
    rw [MAP_WIDTH_eq, MAP_HEIGHT_eq]
    obtain ⟨s, hs, hterr, hrows⟩ :=
      hwf ((camx + lx) / 85) ((camy + ly) / 50) (by omega)
        (by rw [WORLD_COLUMNS_eq]; omega) (by omega) (by rw [WORLD_ROWS_eq]; omega)
    rw [hs, Option.some_bind]
    unfold gridGet
    rw [if_pos ⟨by omega, by omega⟩]
    have hty : ((camy + ly) % 50).toNat < s.terrain.length := by
      rw [hterr]
      have : MAP_HEIGHT.toNat = 50 := rfl
      omega
    rw [List.getElem?_eq_getElem hty, Option.some_bind]
    have htx : ((camx + lx) % 85).toNat < (s.terrain[((camy + ly) % 50).toNat]).length := by
      rw [hrows _ (List.getElem_mem hty)]
      have : MAP_WIDTH.toNat = 85 := rfl
      omega
    rw [List.getElem?_eq_getElem htx]
    exact ⟨_, rfl⟩
  obtain ⟨row, hrow, hlen, -⟩ := seqOpt_map_some hcells
  refine ⟨row, hrow, ?_⟩
  rw [hlen, intRange_length]
  congr 1
  omega

theorem viewport_row_length {w : World} {camx camy ly width : ℤ} {row : List Tile}
    (h : viewport_row w camx camy ly width = some row) : row.length = width.toNat := by
  unfold viewport_row at h
  have := seqOpt_length h
  rw [List.length_map, intRange_length] at this
  rw [this]
  congr 1
  omega

theorem screens_in_rect_mem_bounds {w : World} {camx camy width height sx sy : ℤ}
    (hcx : 0 ≤ camx) (hcy : 0 ≤ camy)
    (hmem : (sx, sy) ∈ w.screens_in_rect camx camy width height) :
    0 ≤ sx ∧ sx < 50 ∧ 0 ≤ sy ∧ sy < 50 := by
  unfold World.screens_in_rect at hmem
  split at hmem
  · exact absurd hmem (List.not_mem_nil _)
  · rw [total_width_eq, total_height_eq, MAP_WIDTH_eq, MAP_HEIGHT_eq] at hmem
    rw [List.mem_flatMap] at hmem
    obtain ⟨sy₁, hsy₁, hmem⟩ := hmem
    rw [List.mem_map] at hmem
    obtain ⟨sx₁, hsx₁, heq⟩ := hmem
    rw [Prod.mk.injEq] at heq
    obtain ⟨rfl, rfl⟩ := heq
    obtain ⟨ha, hb⟩ := mem_intRange hsx₁
    obtain ⟨hc, hd⟩ := mem_intRange hsy₁
    omega

theorem viewport_entities_step_some {w : World} (hwf : WorldWF w) {player : Player}
    {camx camy width height : ℤ} (hcx : 0 ≤ camx) (hcy : 0 ≤ camy)
    (acc : ViewportAcc) (coords : ℤ × ℤ)
    (hmem : coords ∈ w.screens_in_rect camx camy width height) :
    ∃ acc₁, viewport_entities_step w player camx camy width height acc coords =
      some acc₁ := by
  obtain ⟨c1, c2⟩ := coords
  obtain ⟨h1, h2, h3, h4⟩ := screens_in_rect_mem_bounds hcx hcy hmem
  obtain ⟨s, hs, -, -⟩ := hwf c1 c2 h1 (by rw [WORLD_COLUMNS_eq]; omega) h3
    (by rw [WORLD_ROWS_eq]; omega)
  unfold viewport_entities_step
  rw [bind_some_step_opt hs]
  exact ⟨_, rfl⟩

/-- C1: for every player whose flattened world coordinate lies within the
world extents, every well-formed world and every positive window size not
exceeding the world extents, `build_viewport` succeeds and returns a tile
grid of exactly `height` rows of `width` columns, with the player's local
position inside `[0, width) × [0, height)`. -/
theorem build_viewport_shape (w : World) (player : Player) (width height : ℤ)
    (hwf : WorldWF w)
    (hx0 : 0 ≤ player.screen_x * MAP_WIDTH + player.x)
    (hx1 : player.screen_x * MAP_WIDTH + player.x < w.total_width)
    (hy0 : 0 ≤ player.screen_y * MAP_HEIGHT + player.y)
    (hy1 : player.screen_y * MAP_HEIGHT + player.y < w.total_height)
    (hw1 : 0 < width) (hw2 : width ≤ w.total_width)
    (hh1 : 0 < height) (hh2 : height ≤ w.total_height) :
    ∃ v, w.build_viewport player width height = some v ∧
      v.tiles.length = height.toNat ∧
      (∀ row ∈ v.tiles, row.length = width.toNat) ∧
      0 ≤ v.player_position.1 ∧ v.player_position.1 < width ∧
      0 ≤ v.player_position.2 ∧ v.player_position.2 < height := by
  rw [total_width_eq] at hx1 hw2
  rw [total_height_eq] at hy1 hh2
  set wx := player.screen_x * MAP_WIDTH + player.x with hwx
  set wy := player.screen_y * MAP_HEIGHT + player.y with hwy
  set cam := w.viewport_camera wx wy width height with hcam
  have hcamb : 0 ≤ cam.1 ∧ cam.1 + width ≤ 4250 ∧ 0 ≤ cam.2 ∧ cam.2 + height ≤ 2500 := by
    rw [hcam]
    unfold World.viewport_camera World.clamp_camera
    rw [total_width_eq, total_height_eq]
    dsimp only
    refine ⟨?_, ?_, ?_, ?_⟩ <;> omega
  obtain ⟨hc1, hc2, hc3, hc4⟩ := hcamb
  have hiter : ∀ ly ∈ intRange 0 height, ∃ row,
      viewport_row w cam.1 cam.2 ly width = some row := by
    intro ly hly
    obtain ⟨hly0, hlyh⟩ := mem_intRange hly
    obtain ⟨row, hrow, -⟩ :=
      @viewport_row_some w hwf cam.1 cam.2 ly width hc1 hc2 (by omega) (by omega)
    exact ⟨row, hrow⟩
  obtain ⟨tiles, htiles, htlen, htmem⟩ := seqOpt_map_some hiter
  obtain ⟨proj, hproj⟩ := foldlM_option_some
    (fun acc coords hmem => viewport_entities_step_some hwf hc1 hc3 acc coords hmem)
    ([], [], [])
  refine ⟨⟨tiles, (wx - cam.1, wy - cam.2), (cam.1, cam.2), proj.2.1, proj.2.2, proj.1⟩,
    ?_, ?_, ?_, ?_, ?_, ?_, ?_⟩
  · simp only [World.build_viewport]
    rw [← hwx, ← hwy, ← hcam]
    rw [bind_some_step_opt htiles, bind_some_step_opt hproj]
    rfl
  · show tiles.length = height.toNat
    rw [htlen, intRange_length]
    omega
  · show ∀ row ∈ tiles, row.length = width.toNat
    intro row hrow
    obtain ⟨ly, -, hly⟩ := htmem row hrow
    exact viewport_row_length hly
  · show 0 ≤ wx - cam.1
    rw [hcam]
    unfold World.viewport_camera World.clamp_camera
    rw [total_width_eq]
    dsimp only
    omega
  · show wx - cam.1 < width
    rw [hcam]
    unfold World.viewport_camera World.clamp_camera
    rw [total_width_eq]
    dsimp only
    omega
  · show 0 ≤ wy - cam.2
    rw [hcam]
    unfold World.viewport_camera World.clamp_camera
    rw [total_height_eq]
    dsimp only
    omega
  · show wy - cam.2 < height
    rw [hcam]
    unfold World.viewport_camera World.clamp_camera
    rw [total_height_eq]
    dsimp only
    omega

/-- An all-ground tile for demonstration worlds. -/
def demo_tile : Tile :=
  { char := ".", fg := none, bg := none, walkable := true, tile_id := "g" }

/-- A demonstration screen: a MAP_HEIGHT × MAP_WIDTH all-ground terrain. -/
def demo_screen : WorldScreen :=
  { tiles := [], terrain := List.replicate 50 (List.replicate 85 demo_tile),
    biome := "summer", biome_weights := [], enemies := [], characters := [] }

/-- A demonstration world with the same screen at every grid coordinate. -/
def demo_world : World :=
  { screens :=
      ((intRange 0 50).flatMap fun sy =>
        (intRange 0 50).map fun sx => (sx, sy)).map fun c => (c, demo_screen)
    spawn_screen := (25, 25)
    spawn_position := (42, 25) }

theorem lookup_const_pairs {β : Type} (v : β) (keys : List (ℤ × ℤ)) (k : ℤ × ℤ)
    (hk : k ∈ keys) : List.lookup k (keys.map fun c => (c, v)) = some v := by
  induction keys with
  | nil => cases hk
  | cons c cs ih =>
    rcases List.mem_cons.mp hk with rfl | hk
    · simp [List.lookup]
    · simp only [List.map_cons, List.lookup]
      cases hbe : (k == c) with
      | true => rfl
      | false => exact ih hk

theorem demo_world_wf : WorldWF demo_world := by
  intro sx sy h1 h2 h3 h4
  refine ⟨demo_screen, ?_, ?_, ?_⟩
  · apply lookup_const_pairs
    rw [List.mem_flatMap]
    refine ⟨sy, intRange_mem h3 (by rw [WORLD_ROWS_eq] at h4; exact h4), ?_⟩
    rw [List.mem_map]
    exact ⟨sx, intRange_mem h1 (by rw [WORLD_COLUMNS_eq] at h2; exact h2), rfl⟩
  · show (List.replicate 50 (List.replicate 85 demo_tile)).length = MAP_HEIGHT.toNat
    rw [List.length_replicate]
    rfl
  · intro row hrow
    have hrow₁ : row ∈ List.replicate 50 (List.replicate 85 demo_tile) := hrow
    rw [List.eq_of_mem_replicate hrow₁, List.length_replicate]
    rfl

/-- Witness for C1: a concrete 1×1 viewport on the demonstration world. -/
theorem build_viewport_shape_witness :
    ∃ v, demo_world.build_viewport ⟨0, 0, 0, 0, []⟩ 1 1 = some v ∧
      v.tiles.length = (1 : ℤ).toNat ∧
      (∀ row ∈ v.tiles, row.length = (1 : ℤ).toNat) ∧
      0 ≤ v.player_position.1 ∧ v.player_position.1 < 1 ∧
      0 ≤ v.player_position.2 ∧ v.player_position.2 < 1 :=
  build_viewport_shape demo_world ⟨0, 0, 0, 0, []⟩ 1 1 demo_world_wf
    (by decide) (by decide) (by decide) (by decide) (by decide) (by decide)
    (by decide) (by decide)

/-- Modelled from the spec: the enemy catalog `ENEMIES` of
src/data/enemies.py is loaded from data/game_data.json, which is not among
the files under src/.  Per the spec (§6) an entry carries display
glyph/colours, hp, attack range, reward, stats and an optional per-biome
spawn-weight table; `_normalise_enemy` (which is under src/) guarantees that
a present `spawn` entry has exactly the shape `{"biomes": {name: float}}`,
modelled as the optional weight list.  The catalog is a parameter of the
embedding. -/
structure EnemyData where
  name : String
  char : String
  fg : Color
  bg : Color
  hp : ℤ
  attack_min : ℤ
  attack_max : ℤ
  reward_talents : ℤ
  stats : List (String × ℤ)
  spawn : Option (List (String × ℚ)) := none
  tile : Option String := none

/-- The `ENEMIES` mapping, enemy id → data, insertion-ordered. -/
abbrev EnemyCatalog := List (String × EnemyData)

/-- Modelled from the spec: the character catalog `CHARACTERS` of
src/data/characters.py, also loaded from the absent data/game_data.json:
display glyph/colours and base stats per character id. -/
structure CharacterData where
  name : String
  char : String
  fg : Color
  bg : Color
  stats : List (String × ℤ)
  tile : Option String := none

/-- The `CHARACTERS` mapping. -/
abbrev CharacterCatalog := List (String × CharacterData)

/-- Lift a fallible pure computation (dict lookup and the like) into `RandM`
without consuming randomness. -/
def liftOpt {α : Type} (x : Option α) : RandM α := fun o => x.map fun a => (a, o)

/-- Python `max(d, key=d.get)` on a weight dict: the first key of maximal
weight; `None`-free, raises (`none`) on an empty dict. -/
def first_argmax_go (best : String × ℚ) : List (String × ℚ) → String
  | [] => best.1
  | kv :: rest =>
    if best.2 < kv.2 then first_argmax_go kv rest else first_argmax_go best rest

def first_argmax : List (String × ℚ) → Option String
  | [] => none
  | kv :: rest => some (first_argmax_go kv rest)

/-- The cumulative-weight scan of the roulette selections
(src/engine/world.py lines 277-281 and 334-341): the first entry whose
cumulative weight reaches the roll. -/
def roulette_go : List (String × ℚ) → ℚ → ℚ → Option String
  | [], _, _ => none
  | kv :: rest, roll, cumulative =>
    if roll ≤ cumulative + kv.2 then some kv.1
    else roulette_go rest roll (cumulative + kv.2)

/-- `weighted[-1][0]` with a default for the (unreachable) empty list. -/
def last_name (weighted : List (String × ℚ)) (dflt : String) : String :=
  ((weighted.getLast?).map Prod.fst).getD dflt

/-- src/engine/world.py `_enemy_id_for_biome` (lines 253-282): weighted
random selection over the species with a positive declared weight for the
biome; falls back to the first defined enemy when none is eligible (raising,
like `next(iter({}))`, when the catalog is empty). -/
def enemy_id_for_biome (ENEMIES : EnemyCatalog) (biome : String) : RandM String :=
  let weighted := ENEMIES.filterMap fun kv =>
    match kv.2.spawn with
    | none => none
    | some biomes =>
      let weight := (List.lookup biome biomes).getD 0
      if 0 < weight then some (kv.1, weight) else none
  if weighted.isEmpty then
    liftOpt (ENEMIES.head?.map Prod.fst)
  else do
    let r ← randfloat
    let total := weighted.foldl (fun acc kv => acc + kv.2) 0
    let roll := r * total
    pure ((roulette_go weighted roll 0).getD (last_name weighted ""))

/-- src/engine/world.py `find_spawn` (lines 219-231): the screen's geometric
centre when walkable, else the first walkable tile of an expanding
square-ring scan, else the fallback `(0, 0)`. -/
def find_spawn (game_map : Grid) : ℤ × ℤ :=
  let cx := MAP_WIDTH / 2
  let cy := MAP_HEIGHT / 2
  if walkableAt game_map cy cx then (cx, cy)
  else
    match (intRange 1 (max MAP_WIDTH MAP_HEIGHT)).findSome? (fun r =>
      (intRange (max 0 (cy - r)) (min MAP_HEIGHT (cy + r + 1))).findSome? fun y =>
        (intRange (max 0 (cx - r)) (min MAP_WIDTH (cx + r + 1))).findSome? fun x =>
          if walkableAt game_map y x then some (x, y) else none) with
    | some p => p
    | none => (0, 0)

/-- Modelled stdlib boundary: `random.shuffle` permutes the list in place;
modelled as oracle-driven repeated selection, which ranges over exactly the
permutations of the input. -/
def shuffleGo {α : Type} : ℕ → List α → RandM (List α)
  | 0, l => pure l
  | n + 1, l => fun o =>
    match l[o.head % l.length]? with
    | none => some ([], o)
    | some a =>
      match shuffleGo n (l.eraseIdx (o.head % l.length)) o.tail with
      | some (rest, o₁) => some (a :: rest, o₁)
      | none => none

def shuffle {α : Type} (l : List α) : RandM (List α) := shuffleGo l.length l

/-- The `Enemy(...)` constructor call of `build_world` (src/engine/world.py
lines 354-371).  The call passes `tile_key=enemy_data.get("tile")`, but the
`Enemy` dataclass of src/engine/battle.py declares no `tile_key` field, so
the dataclass-generated `__init__` rejects the keyword and the call raises
`TypeError` before any enemy is created; `none` is that exception. -/
def enemy_from_data (_data : EnemyData) (_x _y _screen_x _screen_y : ℤ) :
    Option Enemy := none

/-- The state threaded through the per-screen loop of `build_world`: the
screens built so far, the local `biome_cache` of `build_world`, and the
module-level `_BIOME_CACHE` of src/data/tiles.py. -/
structure BuildState where
  screens : List ((ℤ × ℤ) × WorldScreen)
  biome_cache : List (String × BiomeDefinition)
  mod_cache : BiomeCache

/-- One `biome_cache.setdefault(name, get_biome_definition(name))` step
(src/engine/world.py lines 300-304), accumulating `biome_definitions`.  The
default argument `get_biome_definition(name)` is evaluated eagerly by Python,
so the module cache advances even on a local-cache hit. -/
def setdefault_biome
    (st : List (String × BiomeDefinition) × List (String × BiomeDefinition) × BiomeCache)
    (name : String) :
    RandM (List (String × BiomeDefinition) × List (String × BiomeDefinition) × BiomeCache) := do
  let got ← liftOpt (get_biome_definition st.2.2 name)
  match List.lookup name st.2.1 with
  | some d => pure (dictSet st.1 name d, st.2.1, got.2)
  | none => pure (dictSet st.1 name got.1, dictSet st.2.1 name got.1, got.2)

/-- One `terrain_options[name] = generate_map(...)` step (lines 306-308). -/
def terrain_option_step (topts : List (String × Grid))
    (kv : String × BiomeDefinition) : RandM (List (String × Grid)) := do
  let t ← generate_map MAP_WIDTH MAP_HEIGHT kv.2
  pure (dictSet topts kv.1 t)

/-- One cell of the blended terrain (lines 333-343): roulette-select a biome
among the weighted choices and copy that biome's source-map cell. -/
def blended_cell (topts : List (String × Grid)) (wc : List (String × ℚ))
    (cmax : ℚ) (dflt : String) (ty tx : ℤ) : RandM Tile := do
  let r ← randfloat
  match List.lookup ((roulette_go wc (r * cmax) 0).getD (last_name wc dflt)) topts with
  | none => mfail
  | some tmap =>
    match gridGet tmap ty tx with
    | some tile => pure tile
    | none => mfail

/-- One blended terrain row (lines 315-344): per-row weights at the global
position, the positive-weight choices among the relevant biomes with their
fallbacks, then a roulette pick per cell. -/
def blended_row (span : ℤ) (topts : List (String × Grid))
    (relevant_biomes : List String) (biome : String) (sy ty : ℤ) :
    RandM (List Tile) :=
  let global_y := sy * MAP_HEIGHT + ty
  let normalized := normalized_height global_y (WORLD_ROWS * MAP_HEIGHT)
  let tile_weights := biome_weights_for_height span normalized
  let weighted_choices := (relevant_biomes.map fun name =>
    (name, (List.lookup name tile_weights).getD 0)).filter fun kv => decide (0 < kv.2)
  let weighted_choices :=
    if weighted_choices.isEmpty then [(biome, (1 : ℚ))] else weighted_choices
  let cumulative_max := weighted_choices.foldl (fun acc kv => acc + kv.2) 0
  let pair :=
    if cumulative_max ≤ 0 then ([(biome, (1 : ℚ))], (1 : ℚ))
    else (weighted_choices, cumulative_max)
  mMap (fun tx => blended_cell topts pair.1 pair.2 biome ty tx) (intRange 0 MAP_WIDTH)

/-- One screen of the `build_world` double loop (src/engine/world.py lines
290-380): centre-weight dominant biome, relevant biomes, cached biome
definitions, per-biome source maps, merged palette, blended terrain, then
the enemy placement attempt. -/
def screen_step (ENEMIES : EnemyCatalog) (span : ℤ) (st : BuildState)
    (coords : ℤ × ℤ) : RandM BuildState := do
  let sx := coords.1
  let sy := coords.2
  let centre_tile_y := sy * MAP_HEIGHT + MAP_HEIGHT / 2
  let centre_normalized := normalized_height centre_tile_y (WORLD_ROWS * MAP_HEIGHT)
  let biome_weights := biome_weights_for_height span centre_normalized
  let biome ← liftOpt (first_argmax biome_weights)
  let relevant₀ := (biome_weights.filter fun kv => decide (mkRat 1 100 < kv.2)).map Prod.fst
  let relevant_biomes := if relevant₀.isEmpty then [biome] else relevant₀
  let bdlm ← mFold setdefault_biome relevant_biomes ([], st.biome_cache, st.mod_cache)
  let terrain_options ← mFold terrain_option_step bdlm.1 []
  let combined_tiles := bdlm.1.foldl (fun acc kv => dictUpdate acc kv.2.tiles) []
  let terrain ← mMap (blended_row span terrain_options relevant_biomes biome sy)
    (intRange 0 MAP_HEIGHT)
  let enemy_id ← enemy_id_for_biome ENEMIES biome
  let enemy_data ← liftOpt (List.lookup enemy_id ENEMIES)
  let exy ← find_random_walkable terrain []
  let enemies ←
    if walkableAt terrain exy.2 exy.1 then do
      let e ← liftOpt (enemy_from_data enemy_data exy.1 exy.2 sx sy)
      pure [e]
    else
      pure ([] : List Enemy)
  pure { st with
    screens := dictSetZ st.screens coords
      ⟨combined_tiles, terrain, biome, biome_weights, enemies, []⟩
    biome_cache := bdlm.2.1
    mod_cache := bdlm.2.2 }

/-- One warlock placement (src/engine/world.py lines 387-407): find a
walkable tile avoiding occupied positions; the `continue` on a non-walkable
result skips the screen. -/
def warlock_step (wd : CharacterData)
    (screens : List ((ℤ × ℤ) × WorldScreen)) (coords : ℤ × ℤ) :
    RandM (List ((ℤ × ℤ) × WorldScreen)) := do
  let screen ← liftOpt (List.lookup coords screens)
  let occupied := (screen.enemies.map fun e => (e.x, e.y)) ++
    (screen.characters.map fun c => (c.x, c.y))
  let wxy ← find_random_walkable screen.terrain occupied
  if walkableAt screen.terrain wxy.2 wxy.1 = false then
    pure screens
  else
    pure (dictSetZ screens coords { screen with
      characters := screen.characters ++
        [{ name := wd.name, char := wd.char, fg := wd.fg, bg := wd.bg,
           stats := wd.stats, x := wxy.1, y := wxy.2,
           screen_x := coords.1, screen_y := coords.2, tile_key := wd.tile }] })

/-- Relocation of one spawn-tile enemy (src/engine/world.py lines 413-423):
an enemy sitting exactly on the spawn tile is moved to another random
walkable tile, or flagged defeated when none is found. -/
def relocate_enemy (spawn_map : Grid) (spawn_position : ℤ × ℤ)
    (acc : List Enemy) (enemy : Enemy) : RandM (List Enemy) := do
  if (enemy.x, enemy.y) = spawn_position then do
    let nxy ← find_random_walkable spawn_map [spawn_position]
    if walkableAt spawn_map nxy.2 nxy.1 then
      pure (acc ++ [{ enemy with x := nxy.1, y := nxy.2 }])
    else
      pure (acc ++ [{ enemy with defeated := true }])
  else
    pure (acc ++ [enemy])

/-- src/engine/world.py `build_world` (lines 285-429), parameterized by the
spec-modelled creature catalogs, the spec-modelled transition width, and the
entry state of the module-level biome cache. -/
def build_world (ENEMIES : EnemyCatalog) (CHARACTERS : CharacterCatalog)
    (span : ℤ) (mod_cache : BiomeCache) : RandM World := do
  let coords := (intRange 0 WORLD_ROWS).flatMap fun sy =>
    (intRange 0 WORLD_COLUMNS).map fun sx => (sx, sy)
  let st ← mFold (screen_step ENEMIES span) coords ⟨[], [], mod_cache⟩
  let warlock_data ← liftOpt (List.lookup "warlock" CHARACTERS)
  let available_screens := st.screens.map Prod.fst
  let shuffled ← shuffle available_screens
  let warlock_spawns := shuffled.take (min 5 shuffled.length)
  let screens₁ ← mFold (warlock_step warlock_data) warlock_spawns st.screens
  let spawn_screen := ((WORLD_COLUMNS / 2 : ℤ), (WORLD_ROWS / 2 : ℤ))
  let spawn_map ← liftOpt ((List.lookup spawn_screen screens₁).map WorldScreen.terrain)
  let spawn_position := find_spawn spawn_map
  let spawn_screen_data ← liftOpt (List.lookup spawn_screen screens₁)
  let enemies₁ ← mFold (relocate_enemy spawn_map spawn_position)
    spawn_screen_data.enemies []
  let screens₂ := dictSetZ screens₁ spawn_screen
    { spawn_screen_data with enemies := enemies₁ }
  pure { screens := screens₂
         spawn_screen := spawn_screen
         spawn_position := spawn_position }

/-- A failing first step fails the whole bind. -/
theorem bind_none {α β : Type} {x : RandM α} {f : α → RandM β} {o : Oracle}
    (hx : x o = none) : (x >>= f) o = none := by
  show (x o).bind (fun p => f p.1 p.2) = none
  rw [hx]
  rfl

/-- Peeling the first element off an integer range. -/
theorem intRange_cons {a b : ℤ} (h : a < b) :
    intRange a b = a :: intRange (a + 1) b := by
  unfold intRange
  have he : (b - a).toNat = (b - (a + 1)).toNat + 1 := by omega
  rw [he]
  rfl

/-- Members of a dict after an assignment: the new pair or an old member. -/
theorem mem_dictSet {α : Type} {d : List (String × α)} {k : String} {v : α}
    {kv : String × α} (h : kv ∈ dictSet d k v) : kv = (k, v) ∨ kv ∈ d := by
  induction d with
  | nil => simpa [dictSet] using h
  | cons kv₀ rest ih =>
    obtain ⟨k₀, v₀⟩ := kv₀
    by_cases he : k₀ = k
    · subst he
      simp only [dictSet, if_pos rfl] at h
      rcases List.mem_cons.mp h with h | h
      · exact Or.inl h
      · exact Or.inr (List.mem_cons_of_mem _ h)
    · simp only [dictSet, if_neg he] at h
      rcases List.mem_cons.mp h with h | h
      · exact Or.inr (h ▸ List.mem_cons_self _ _)
      · rcases ih h with h | h
        · exact Or.inl h
        · exact Or.inr (List.mem_cons_of_mem _ h)

theorem mem_of_getElem?_some {α : Type} {l : List α} {n : ℕ} {a : α}
    (h : l[n]? = some a) : a ∈ l := by
  obtain ⟨hlt, he⟩ := List.getElem?_eq_some_iff.mp h
  exact he ▸ List.getElem_mem hlt

/-- Destructuring a successful `mMap` over a nonempty list. -/
theorem mMap_cons_eq_some {α β : Type} {f : α → RandM β} {a : α} {as : List α}
    {o : Oracle} {l : List β} {o₁ : Oracle}
    (h : mMap f (a :: as) o = some (l, o₁)) :
    ∃ b o₂ bs, f a o = some (b, o₂) ∧ mMap f as o₂ = some (bs, o₁) ∧ l = b :: bs := by
  unfold mMap at h
  obtain ⟨b, o₂, hb, h⟩ := bind_eq_some h
  obtain ⟨bs, o₃, hbs, h⟩ := bind_eq_some h
  obtain ⟨he, ho⟩ := pure_eq_some h
  subst he
  subst ho
  exact ⟨b, o₂, bs, hb, hbs, rfl⟩

/-- A biome definition as `_build_biome` produces it from the config
`get_biome_definition` selects for some id: the only shape the cache and
`get_biome_definition` ever hold. -/
def CatalogBuilt (d : BiomeDefinition) : Prop :=
  ∃ name, build_biome name ((List.lookup name BIOME_CONFIGS).getD summer_config) = some d

theorem get_biome_definition_catalog {c : BiomeCache} {n : String}
    {d : BiomeDefinition} {c₁ : BiomeCache} (hwf : CacheWF c)
    (h : get_biome_definition c n = some (d, c₁)) : CatalogBuilt d ∧ CacheWF c₁ := by
  unfold get_biome_definition at h
  cases hlk : List.lookup n c with
  | some d₀ =>
    simp only [hlk] at h
    injection h with h
    rw [Prod.mk.injEq] at h
    obtain ⟨hd, hc⟩ := h
    subst hd
    subst hc
    exact ⟨⟨n, hwf n d₀ (mem_of_lookup_some hlk)⟩, hwf⟩
  | none =>
    simp only [hlk] at h
    cases hb : build_biome n ((List.lookup n BIOME_CONFIGS).getD summer_config) with
    | none =>
      simp only [hb] at h
      exact Option.noConfusion h
    | some d₀ =>
      simp only [hb] at h
      injection h with h
      rw [Prod.mk.injEq] at h
      obtain ⟨hd, hc⟩ := h
      subst hd
      subst hc
      refine ⟨⟨n, hb⟩, ?_⟩
      intro k v hm
      rcases mem_dictSet hm with he | hm₁
      · injection he with he₁ he₂
        subst he₁
        subst he₂
        exact hb
      · exact hwf k v hm₁

/-- Invariant of the `biome_definitions` accumulation of a screen: every
definition in the accumulator and in the local cache is catalog-built, and
the module cache stays well-formed. -/
def BDWF (st : List (String × BiomeDefinition) × List (String × BiomeDefinition) × BiomeCache) : Prop :=
  (∀ kv ∈ st.1, CatalogBuilt kv.2) ∧ (∀ kv ∈ st.2.1, CatalogBuilt kv.2) ∧ CacheWF st.2.2

theorem setdefault_biome_wf {st st₁ : List (String × BiomeDefinition) × List (String × BiomeDefinition) × BiomeCache}
    {name : String} {o o₁ : Oracle}
    (hwf : BDWF st) (h : setdefault_biome st name o = some (st₁, o₁)) : BDWF st₁ := by
  obtain ⟨hbd, hloc, hmod⟩ := hwf
  unfold setdefault_biome at h
  obtain ⟨got, o₂, hgot, h⟩ := bind_eq_some h
  obtain ⟨dg, mc⟩ := got
  have hg : get_biome_definition st.2.2 name = some (dg, mc) := by
    unfold liftOpt at hgot
    cases hgd : get_biome_definition st.2.2 name with
    | none =>
      rw [hgd] at hgot
      exact Option.noConfusion hgot
    | some p =>
      rw [hgd] at hgot
      injection hgot with hgot
      rw [Prod.mk.injEq] at hgot
      rw [← hgot.1]
  obtain ⟨hcb, hwf₂⟩ := get_biome_definition_catalog hmod hg
  cases hlk : List.lookup name st.2.1 with
  | some dl =>
    simp only [hlk] at h
    obtain ⟨he, -⟩ := pure_eq_some h
    subst he
    refine ⟨?_, hloc, hwf₂⟩
    intro kv hm
    rcases mem_dictSet hm with he | hm₁
    · subst he
      exact hloc (name, dl) (mem_of_lookup_some hlk)
    · exact hbd kv hm₁
  | none =>
    simp only [hlk] at h
    obtain ⟨he, -⟩ := pure_eq_some h
    subst he
    refine ⟨?_, ?_, hwf₂⟩
    · intro kv hm
      rcases mem_dictSet hm with he | hm₁
      · subst he
        exact hcb
      · exact hbd kv hm₁
    · intro kv hm
      rcases mem_dictSet hm with he | hm₁
      · subst he
        exact hcb
      · exact hloc kv hm₁

/-- The shape of a terrain matrix: `H` rows of `W` tiles. -/
def GShape (W H : ℕ) (g : Grid) : Prop :=
  g.length = H ∧ ∀ row ∈ g, row.length = W

theorem gridSet_gshape {W H : ℕ} {g : Grid} {y x : ℤ} {t : Tile}
    (h : GShape W H g) : GShape W H (gridSet g y x t) := by
  obtain ⟨hl, hr⟩ := h
  unfold gridSet
  split
  · split
    · rename_i row hrow
      refine ⟨by simp [hl], ?_⟩
      intro r hm
      rcases List.mem_or_eq_of_mem_set hm with hm | he
      · exact hr r hm
      · subst he
        rw [List.length_set]
        exact hr row (mem_of_getElem?_some hrow)
    · exact ⟨hl, hr⟩
  · exact ⟨hl, hr⟩

/-- A forest-cell visit leaves the grid alone or rewrites one cell. -/
theorem forestCell_result {width height : ℤ} {d : BiomeDefinition}
    {fx fy radius : ℤ} {g : Grid} {y x : ℤ} {o : Oracle} {g₁ : Grid} {o₁ : Oracle}
    (h : forestCell width height d fx fy radius g y x o = some (g₁, o₁)) :
    g₁ = g ∨ ∃ t, g₁ = gridSet g y x t := by
  unfold forestCell at h
  split at h
  · exact Or.inl (pure_eq_some h).1
  · split at h
    · obtain ⟨roll, o₂, hroll, h⟩ := bind_eq_some h
      split at h
      · obtain ⟨tn, o₃, htn, h⟩ := bind_eq_some h
        cases tn with
        | none => exact Or.inl (pure_eq_some h).1
        | some nm =>
          cases hlk : List.lookup nm d.tiles with
          | none =>
            simp only [hlk] at h
            exact Option.noConfusion h
          | some t =>
            simp only [hlk] at h
            exact Or.inr ⟨t, (pure_eq_some h).1⟩
      · exact Or.inl (pure_eq_some h).1
    · exact Or.inl (pure_eq_some h).1

theorem forestCell_gshape {W H : ℕ} {width height : ℤ} {d : BiomeDefinition}
    {fx fy radius : ℤ} {g : Grid} {y x : ℤ} {o : Oracle} {g₁ : Grid} {o₁ : Oracle}
    (hs : GShape W H g)
    (h : forestCell width height d fx fy radius g y x o = some (g₁, o₁)) :
    GShape W H g₁ := by
  rcases forestCell_result h with he | ⟨t, he⟩
  · exact he ▸ hs
  · exact he ▸ gridSet_gshape hs

theorem forestCluster_gshape {W H : ℕ} {width height : ℤ} {d : BiomeDefinition}
    {g : Grid} {o : Oracle} {g₁ : Grid} {o₁ : Oracle} (hs : GShape W H g)
    (h : forestCluster width height d g o = some (g₁, o₁)) : GShape W H g₁ := by
  unfold forestCluster at h
  obtain ⟨fx, o₂, -, h⟩ := bind_eq_some h
  obtain ⟨fy, o₃, -, h⟩ := bind_eq_some h
  obtain ⟨radius, o₄, -, h⟩ := bind_eq_some h
  exact mFold_invariant (GShape W H)
    (fun c a o₅ c₁ o₆ hP _ hstep =>
      mFold_invariant (GShape W H)
        (fun c' a' o₇ c₁' o₈ hP' _ hstep' => forestCell_gshape hP' hstep') hP hstep)
    hs h

theorem scatterPlace_result {width height : ℤ} {rule : ScatterRule} {t : Tile}
    {g : Grid} {o : Oracle} {g₁ : Grid} {o₁ : Oracle}
    (h : scatterPlace width height rule t g o = some (g₁, o₁)) :
    g₁ = g ∨ ∃ y x, g₁ = gridSet g y x t := by
  unfold scatterPlace at h
  obtain ⟨x, o₂, hx, h⟩ := bind_eq_some h
  obtain ⟨y, o₃, hy, h⟩ := bind_eq_some h
  split at h
  · exact Or.inl (pure_eq_some h).1
  · exact Or.inr ⟨y, x, (pure_eq_some h).1⟩

theorem scatterRuleStep_gshape {W H : ℕ} {width height : ℤ} {d : BiomeDefinition}
    {g : Grid} {rule : ScatterRule} {o : Oracle} {g₁ : Grid} {o₁ : Oracle}
    (hs : GShape W H g)
    (h : scatterRuleStep width height d g rule o = some (g₁, o₁)) : GShape W H g₁ := by
  unfold scatterRuleStep at h
  obtain ⟨count, o₂, -, h⟩ := bind_eq_some h
  cases hlk : List.lookup rule.tile d.tiles with
  | none =>
    simp only [hlk] at h
    exact (pure_eq_some h).1 ▸ hs
  | some t =>
    simp only [hlk] at h
    refine mFold_invariant (GShape W H) (fun c a o₃ c₁ o₄ hP _ hstep => ?_) hs h
    rcases scatterPlace_result hstep with he | ⟨y, x, he⟩
    · exact he ▸ hP
    · exact he ▸ gridSet_gshape hP

/-- A `generate_map` result has exactly `height` rows of `width` tiles. -/
theorem generate_map_gshape {width height : ℤ} {d : BiomeDefinition} {o : Oracle}
    {g : Grid} {o₁ : Oracle} (h : generate_map width height d o = some (g, o₁)) :
    GShape width.toNat height.toNat g := by
  unfold generate_map at h
  cases hlk : List.lookup d.ground_tile d.tiles with
  | none =>
    simp only [hlk] at h
    exact Option.noConfusion h
  | some gt =>
    simp only [hlk] at h
    obtain ⟨nf, o₂, -, h⟩ := bind_eq_some h
    obtain ⟨g₁, o₃, h₁, h⟩ := bind_eq_some h
    obtain ⟨g₂, o₄, h₂, h⟩ := bind_eq_some h
    obtain ⟨he, -⟩ := pure_eq_some h
    subst he
    have hs0 : GShape width.toNat height.toNat
        (List.replicate height.toNat (List.replicate width.toNat gt)) := by
      refine ⟨by simp, ?_⟩
      intro row hm
      rw [List.eq_of_mem_replicate hm]
      simp
    have hs1 := mFold_invariant (GShape width.toNat height.toNat)
      (fun c a o₅ c₁ o₆ hP _ hstep => forestCluster_gshape hP hstep) hs0 h₁
    exact mFold_invariant (GShape width.toNat height.toNat)
      (fun c a o₅ c₁ o₆ hP _ hstep => scatterRuleStep_gshape hP hstep) hs1 h₂

/-- For a definition built from a given config: the ground tile exists and
every tile the border invariant admits is walkable, granted the concrete
per-config facts packaged in `hok`. -/
theorem catalog_ground_walkable_of (name : String) (cfg : BiomeConfig)
    {d : BiomeDefinition} (hbb : build_biome name cfg = some d)
    (hok : ∃ ts, build_tileset cfg = some ts ∧ ∃ gt,
      List.lookup ts.2 ts.1 = some gt ∧ gt.walkable = true ∧
      (cfg.scatter_rules.all fun r =>
        r.avoid_border || ((List.lookup r.tile ts.1).map Tile.walkable).getD true) = true) :
    ∃ gt, List.lookup d.ground_tile d.tiles = some gt ∧
      ∀ t, BorderTileOk d gt t → t.walkable = true := by
  obtain ⟨ts, hts, hdd⟩ := build_biome_eq_fields _ _ _ hbb
  obtain ⟨ts₁, hts₁, gt, hgt, hw, hall⟩ := hok
  rw [hts] at hts₁
  injection hts₁ with e
  subst e
  subst hdd
  refine ⟨gt, hgt, ?_⟩
  intro t hok₁
  rcases hok₁ with he | ⟨r, hr, hab, hlk⟩
  · subst he
    exact hw
  · have hlk₁ : List.lookup r.tile ts.1 = some t := hlk
    have hr₁ : r ∈ cfg.scatter_rules := hr
    have hre := List.all_eq_true.mp hall r hr₁
    rw [hab, Bool.false_or, hlk₁] at hre
    simpa using hre

/-- Every definition `get_biome_definition` can return has a walkable ground
tile, and every tile `generate_map` can leave on the map border is
walkable. -/
theorem catalog_ground_walkable {d : BiomeDefinition} (hcb : CatalogBuilt d) :
    ∃ gt, List.lookup d.ground_tile d.tiles = some gt ∧
      ∀ t, BorderTileOk d gt t → t.walkable = true := by
  obtain ⟨name, hbb⟩ := hcb
  rcases lookup_BIOME_CONFIGS_cases name with hcfg | hcfg | hcfg <;> rw [hcfg] at hbb
  · exact catalog_ground_walkable_of name summer_config hbb
      ⟨_, rfl, _, rfl, by decide, by decide⟩
  · exact catalog_ground_walkable_of name winter_config hbb
      ⟨_, rfl, _, rfl, by decide, by decide⟩
  · exact catalog_ground_walkable_of name drought_config hbb
      ⟨_, rfl, _, rfl, by decide, by decide⟩

/-- The top-left cell of any `generate_map` result for a catalog-built
definition is walkable: it lies on the border, and border cells only ever
hold the ground fill or a border-allowed scatter tile, all walkable. -/
theorem generate_map_walkable00 {d : BiomeDefinition} {o : Oracle} {g : Grid}
    {o₁ : Oracle} (hcb : CatalogBuilt d)
    (hg : generate_map MAP_WIDTH MAP_HEIGHT d o = some (g, o₁)) :
    walkableAt g 0 0 = true := by
  obtain ⟨gt, hgt, hbok⟩ := catalog_ground_walkable hcb
  have hborder := generate_map_border hgt hg
  obtain ⟨hlen, hrow⟩ := generate_map_gshape hg
  cases hg0 : g[0]? with
  | none =>
    rw [List.getElem?_eq_none_iff, hlen] at hg0
    exact absurd hg0 (by decide)
  | some row0 =>
    have hrl : row0.length = MAP_WIDTH.toNat := hrow row0 (mem_of_getElem?_some hg0)
    cases ht0 : row0[0]? with
    | none =>
      rw [List.getElem?_eq_none_iff, hrl] at ht0
      exact absurd ht0 (by decide)
    | some t0 =>
      have hget : gridGet g 0 0 = some t0 := by
        unfold gridGet
        rw [if_pos ⟨le_refl 0, le_refl 0⟩]
        simp only [Int.toNat_zero, hg0, Option.some_bind, ht0]
      have hbt := hborder 0 0 t0 (Or.inl rfl) hget
      unfold walkableAt
      rw [hget]
      exact hbok t0 hbt

/-- Invariant of the `terrain_options` accumulation: every stored source map
has a walkable top-left cell. -/
theorem terrain_option_step_wf {topts topts₁ : List (String × Grid)}
    {kv : String × BiomeDefinition} {o o₁ : Oracle} (hcb : CatalogBuilt kv.2)
    (hP : ∀ e ∈ topts, walkableAt e.2 0 0 = true)
    (h : terrain_option_step topts kv o = some (topts₁, o₁)) :
    ∀ e ∈ topts₁, walkableAt e.2 0 0 = true := by
  unfold terrain_option_step at h
  obtain ⟨g, o₂, hg, h⟩ := bind_eq_some h
  obtain ⟨he, -⟩ := pure_eq_some h
  subst he
  intro e hm
  rcases mem_dictSet hm with he | hm₁
  · subst he
    exact generate_map_walkable00 hcb hg
  · exact hP e hm₁

/-- A successful blended cell copies a cell of one of the source maps. -/
theorem blended_cell_mem {topts : List (String × Grid)} {wc : List (String × ℚ)}
    {cmax : ℚ} {dflt : String} {ty tx : ℤ} {o : Oracle} {tile : Tile} {o₁ : Oracle}
    (h : blended_cell topts wc cmax dflt ty tx o = some (tile, o₁)) :
    ∃ name tmap, List.lookup name topts = some tmap ∧
      gridGet tmap ty tx = some tile := by
  unfold blended_cell at h
  obtain ⟨r, o₂, -, h⟩ := bind_eq_some h
  cases hlk : List.lookup ((roulette_go wc (r * cmax) 0).getD (last_name wc dflt)) topts with
  | none =>
    simp only [hlk] at h
    exact Option.noConfusion h
  | some tmap =>
    simp only [hlk] at h
    cases hgt : gridGet tmap ty tx with
    | none =>
      simp only [hgt] at h
      exact Option.noConfusion h
    | some t₀ =>
      simp only [hgt] at h
      obtain ⟨he, -⟩ := pure_eq_some h
      subst he
      exact ⟨_, tmap, hlk, hgt⟩

theorem walkableAt_cons00 {t : Tile} {r : List Tile} {g : Grid} :
    walkableAt ((t :: r) :: g) 0 0 = t.walkable := by
  unfold walkableAt gridGet
  rw [if_pos ⟨le_refl (0 : ℤ), le_refl (0 : ℤ)⟩]
  simp only [Int.toNat_zero, List.getElem?_cons_zero, Option.some_bind]

/-- The blended terrain of a screen has a walkable top-left cell whenever
every source map does. -/
theorem blended_terrain_walkable00 {span : ℤ} {topts : List (String × Grid)}
    {relevant : List String} {biome : String} {sy : ℤ} {o : Oracle}
    {terrain : Grid} {o₁ : Oracle}
    (htw : ∀ kv ∈ topts, walkableAt kv.2 0 0 = true)
    (h : mMap (blended_row span topts relevant biome sy) (intRange 0 MAP_HEIGHT) o =
      some (terrain, o₁)) :
    walkableAt terrain 0 0 = true := by
  rw [intRange_cons (show (0 : ℤ) < MAP_HEIGHT by decide)] at h
  obtain ⟨row0, o₂, rows, hrow0, -, he⟩ := mMap_cons_eq_some h
  subst he
  unfold blended_row at hrow0
  rw [intRange_cons (show (0 : ℤ) < MAP_WIDTH by decide)] at hrow0
  obtain ⟨t0, o₃, trest, ht0, -, he'⟩ := mMap_cons_eq_some hrow0
  subst he'
  obtain ⟨nm, tmap, hlk, hget⟩ := blended_cell_mem ht0
  have hw := htw (nm, tmap) (mem_of_lookup_some hlk)
  unfold walkableAt at hw
  rw [hget] at hw
  rw [walkableAt_cons00]
  exact hw

/-- Whatever `find_random_walkable` returns is a walkable tile or the
`(0, 0)` fallback. -/
theorem find_random_walkable_go_result {g : Grid} {width height : ℤ}
    {exclude : List (ℤ × ℤ)} :
    ∀ {n : ℕ} {o : Oracle} {res : ℤ × ℤ} {o₁ : Oracle},
      find_random_walkable_go g width height exclude n o = some (res, o₁) →
      walkableAt g res.2 res.1 = true ∨ res = (0, 0) := by
  intro n
  induction n with
  | zero =>
    intro o res o₁ h
    exact Or.inr (pure_eq_some h).1
  | succ m ih =>
    intro o res o₁ h
    unfold find_random_walkable_go at h
    obtain ⟨x, o₂, hx, h⟩ := bind_eq_some h
    obtain ⟨y, o₃, hy, h⟩ := bind_eq_some h
    split at h
    · exact ih h
    · split at h
      · rename_i hwk
        obtain ⟨he, -⟩ := pure_eq_some h
        subst he
        exact Or.inl hwk
      · exact ih h

theorem find_random_walkable_result {g : Grid} {exclude : List (ℤ × ℤ)}
    {o : Oracle} {res : ℤ × ℤ} {o₁ : Oracle}
    (h : find_random_walkable g exclude o = some (res, o₁)) :
    walkableAt g res.2 res.1 = true ∨ res = (0, 0) := by
  unfold find_random_walkable at h
  cases hg0 : g[0]? with
  | none =>
    simp only [hg0] at h
    exact Option.noConfusion h
  | some row0 =>
    simp only [hg0] at h
    exact find_random_walkable_go_result h

/-- Every single screen iteration of `build_world` raises: the blended
terrain's top-left cell is walkable, so `find_random_walkable`'s result
(walkable hit or `(0, 0)` fallback) always passes the walkable guard, and
the guarded `Enemy(...)` construction always raises `TypeError`. -/
theorem screen_step_none (EN : EnemyCatalog) (span : ℤ) (st : BuildState)
    (c : ℤ × ℤ) (o : Oracle)
    (hloc : ∀ kv ∈ st.biome_cache, CatalogBuilt kv.2)
    (hmod : CacheWF st.mod_cache) :
    screen_step EN span st c o = none := by
  cases hres : screen_step EN span st c o with
  | none => rfl
  | some p =>
    exfalso
    obtain ⟨st₁, o₁⟩ := p
    unfold screen_step at hres
    obtain ⟨biome, o₂, hbio, hres⟩ := bind_eq_some hres
    obtain ⟨bdlm, o₃, hbdlm, hres⟩ := bind_eq_some hres
    obtain ⟨topts, o₄, htopts, hres⟩ := bind_eq_some hres
    obtain ⟨terrain, o₅, hterr, hres⟩ := bind_eq_some hres
    obtain ⟨eid, o₆, heid, hres⟩ := bind_eq_some hres
    obtain ⟨edata, o₇, hed, hres⟩ := bind_eq_some hres
    obtain ⟨exy, o₈, hexy, hres⟩ := bind_eq_some hres
    have hbdwf : BDWF bdlm :=
      mFold_invariant BDWF
        (fun c' a o₂' c₁ o₃' hP _ hstep => setdefault_biome_wf hP hstep)
        ⟨fun kv hm => absurd hm (List.not_mem_nil kv), hloc, hmod⟩ hbdlm
    have htw : ∀ kv ∈ topts, walkableAt kv.2 0 0 = true :=
      mFold_invariant (fun l => ∀ kv ∈ l, walkableAt kv.2 0 0 = true)
        (fun c' a o₂' c₁ o₃' hP ha hstep =>
          terrain_option_step_wf (hbdwf.1 a ha) hP hstep)
        (fun kv hm => absurd hm (List.not_mem_nil kv)) htopts
    have hw00 : walkableAt terrain 0 0 = true :=
      blended_terrain_walkable00 htw hterr
    have hcond : walkableAt terrain exy.2 exy.1 = true := by
      rcases find_random_walkable_result hexy with hwk | h00
      · exact hwk
      · rw [h00]
        exact hw00
    rw [if_pos hcond] at hres
    obtain ⟨e, o₉, he, -⟩ := bind_eq_some hres
    simp [liftOpt, enemy_from_data] at he

/-- `build_world` raises `TypeError` on every run: the very first screen of
the loop reaches the `Enemy(...)` call and that call rejects the `tile_key`
keyword. -/
theorem build_world_none (EN : EnemyCatalog) (CH : CharacterCatalog)
    (span : ℤ) (cache : BiomeCache) (o : Oracle) (hwf : CacheWF cache) :
    build_world EN CH span cache o = none := by
  obtain ⟨rest, hcl⟩ : ∃ rest, ((intRange 0 WORLD_ROWS).flatMap fun sy =>
      (intRange 0 WORLD_COLUMNS).map fun sx => ((sx : ℤ), sy)) =
        ((0 : ℤ), (0 : ℤ)) :: rest := by
    rw [intRange_cons (show (0 : ℤ) < WORLD_ROWS by decide), List.flatMap_cons,
      intRange_cons (show (0 : ℤ) < WORLD_COLUMNS by decide), List.map_cons,
      List.cons_append]
    exact ⟨_, rfl⟩
  show ((mFold (screen_step EN span) _ ⟨[], [], cache⟩ >>= fun st => _) o = none)
  rw [hcl]
  apply bind_none
  simp only [mFold]
  apply bind_none
  exact screen_step_none EN span ⟨[], [], cache⟩ (0, 0) o
    (fun kv hm => absurd hm (List.not_mem_nil kv)) hwf

/-- C8: the claim that every enemy and character stored on a screen of a
`World` returned by `build_world` sits on a walkable tile is not realizable:
`build_world` returns no `World` at all.  For every enemy catalog, character
catalog, transition width, reachable module-cache state and oracle, the run
raises (`none`): the first screen's blended terrain has a walkable top-left
cell, so `find_random_walkable`'s result always passes the walkable guard
and the guarded `Enemy(..., tile_key=...)` construction is always reached —
and the `Enemy` dataclass of src/engine/battle.py has no `tile_key` field,
so that call raises `TypeError` on every run. -/
theorem build_world_placement_unrealizable (EN : EnemyCatalog)
    (CH : CharacterCatalog) (span : ℤ) (cache : BiomeCache) (o : Oracle)
    (hwf : CacheWF cache) :
    build_world EN CH span cache o = none :=
  build_world_none EN CH span cache o hwf

/-- Witness for C8: the concrete empty-catalog run with the all-zero oracle
raises. -/
theorem build_world_placement_unrealizable_witness :
    build_world [] [] 0 [] (fun _ => 0) = none :=
  build_world_placement_unrealizable [] [] 0 [] (fun _ => 0)
    (fun k v hm => absurd hm (List.not_mem_nil (k, v)))

/-- C4: the claim that `build_world` places the player spawn on the central
screen (centre tile or ring search, walkable, enemy-free) is not realizable:
no run of `build_world` returns a `World`, for any enemy catalog, character
catalog, transition width, reachable module-cache state or oracle.  The
spawn code of lines 409-423 of src/engine/world.py is never reached: the
first screen's enemy placement (always reached, because the blended
terrain's top-left cell is walkable and `find_random_walkable` returns a
walkable hit or the `(0, 0)` fallback) calls `Enemy(...)` with the
`tile_key` keyword, which the `Enemy` dataclass rejects with `TypeError`. -/
theorem build_world_spawn_unrealizable (EN : EnemyCatalog)
    (CH : CharacterCatalog) (span : ℤ) (cache : BiomeCache) (o : Oracle)
    (hwf : CacheWF cache) :
    (build_world EN CH span cache o).isSome = false := by
  rw [build_world_none EN CH span cache o hwf]
  rfl

/-- Witness for C4: the concrete empty-catalog run with the all-zero oracle
produces no world. -/
theorem build_world_spawn_unrealizable_witness :
    (build_world [] [] 0 [] (fun _ => 0)).isSome = false :=
  build_world_spawn_unrealizable [] [] 0 [] (fun _ => 0)
    (fun k v hm => absurd hm (List.not_mem_nil (k, v)))

end Game
